import Mathlib

/-!
# Verification of the record-cache core (identity map, merge protocol, fetch coordination, snapshots)

This file gives a shallow embedding of the store core:

* `internal-model-factory.ts` — the `InternalModelFactory` (lookup, peek, peekById,
  `_build`, remove) and the identifier-merge callback installed via `__configureMerge`;
* `core-store.ts` — `_load`, `_push`, `push`, `_fetchDataIfNeededForIdentifier`,
  `_findBelongsToByJsonApiResource`, `areAllInverseRecordsLoaded`,
  `_internalModelForResource`;
* `snapshot.ts` — `Snapshot` attribute/relationship accessors.

Components of the repository that are not part of the provided sources (the
`IdentifierCache` internals, `InternalModel`, `FetchManager`, `InstanceCache`) are
modelled from the specification; every such definition carries a doc comment
starting with `Modelled from the spec:`.

JavaScript object identity is modelled with explicit keys: internal models are
addressed by `Nat` keys, identifiers by their (unique and stable) `lid` strings,
promises and snapshots by `Nat` handles, and heap objects (for the snapshot
attribute-copy semantics) by `Nat` addresses.  Reference equality is equality of
keys/handles/addresses.
-/

set_option autoImplicit false

/-! ## Association tables (`Dict`-like maps used throughout the model) -/

namespace Tbl

variable {α : Type} {β : Type} [DecidableEq α]

/-- First-match lookup in an association list. -/
def get : List (α × β) → α → Option β
  | [], _ => none
  | (k, v) :: rest, a => if k = a then some v else get rest a

/-- Remove every entry with the given key. -/
def del : List (α × β) → α → List (α × β)
  | [], _ => []
  | (k, v) :: rest, a => if k = a then del rest a else (k, v) :: del rest a

/-- Insert or overwrite the entry for a key. -/
def set (l : List (α × β)) (a : α) (b : β) : List (α × β) :=
  (a, b) :: del l a

end Tbl

/-! ## Data model -/

/-- `StableRecordIdentifier` — the current value of an identifier object:
`{ type, id, lid }` with `id` null until known (`none`), `lid` always present. -/
structure IdentifierVal where
  type : String
  id : Option String
  lid : String
deriving DecidableEq, Repr

/-- The slice of a resource document that the identifier-merge callback inspects:
whether an `id` member is present (`id? = some v`, where `v = none` models `id: null`)
and whether a `type` member is present. -/
structure MergeResourceData where
  id? : Option (Option String)
  type? : Option String
deriving DecidableEq, Repr

/-- Record state machine position (spec section 4.3), collapsed to the flags the
modelled operations read: `isEmpty`, `isLoading`, `isLoaded`, `isDeleted`. -/
inductive RecordState where
  | empty
  | loading
  | loaded
  | created
  | deleted
deriving DecidableEq, Repr

/-- `isLoaded` is true iff the entry has ever received a successful load
(spec section 4.3): every state other than `empty` and `loading`. -/
def RecordState.isLoadedState : RecordState → Bool
  | .empty => false
  | .loading => false
  | _ => true

/-- A resource identifier object `{ type, id?, lid? }` as consumed by the
identifier cache (`ResourceIdentifierObject`). -/
structure ResourceIdObj where
  type : String
  id : Option String
  lid : Option String
deriving DecidableEq, Repr

/-- An `ExistingResourceObject` handed to `push`/`_load`: `type`, `id`
(`none` models both `null` and `undefined`; the empty string is representable),
an optional `lid`, and an opaque attributes payload. -/
structure ExistingResourceObject where
  type : String
  id : Option String
  lid : Option String
  attributes : List (String × String)
deriving DecidableEq, Repr

/-- Modelled from the spec: the per-identifier Record Cache Entry (`InternalModel`,
whose class body is not part of the provided sources).  It carries the state-machine
position, the materialized-record flag, the deferred/executed destroy flags, its
identifier back-reference (`lid`), its mutable `_id`, and the last data applied via
`setupData`. -/
structure InternalModel where
  modelName : String
  lid : String
  _id : Option String
  state : RecordState
  hasRecord : Bool
  scheduledDestroy : Bool
  isDestroyed : Bool
  lastData : Option ExistingResourceObject
deriving DecidableEq, Repr

instance : Inhabited InternalModel :=
  ⟨{ modelName := "", lid := "", _id := none, state := .empty, hasRecord := false,
     scheduledDestroy := false, isDestroyed := false, lastData := none }⟩

/-- Relationship kind of a schema field. -/
inductive RelKind where
  | belongsTo
  | hasMany
deriving DecidableEq, Repr

/-- A relationship edge's materialized `getData().data` member.
For a belongs-to edge: `none` is `undefined`, `some none` is `null`,
`some (some r)` is a resource linkage.  For a has-many edge: `none` is
`undefined`, `some rs` is the member array. -/
inductive RelEdge where
  | one (data : Option (Option ResourceIdObj))
  | many (data : Option (List ResourceIdObj))
deriving DecidableEq, Repr

/-- A JavaScript value stored in a snapshot attribute dictionary: `undefined`,
an opaque primitive, or a reference to a heap object. -/
inductive JVal where
  | undef
  | prim (s : String)
  | ref (a : Nat)
deriving DecidableEq, Repr

/-- A heap object: a string-keyed dictionary or an array. -/
inductive JObj where
  | dict (entries : List (String × JVal))
  | arr (elems : List JVal)
deriving DecidableEq, Repr

/-- Errors surfaced synchronously by the modelled operations. -/
inductive StoreError where
  /-- `You must include an 'id' for ... in an object passed to 'push'`. -/
  | missingId (type : String)
  /-- `You tried to push data with a type ... but no model could be found`. -/
  | unknownType (type : String)
  /-- The merge-callback conflict: both internal models have materialized records.
  Carries both identifiers, as the thrown message does. -/
  | mergeConflict (identifier matchedIdentifier : IdentifierVal)
  /-- An id collision detected by `_build`/`createIdentifierForNewRecord`. -/
  | idInUse (type : String) (id : String)
  /-- `Expected to find a pending request for a record in the loading state`. -/
  | noPendingFetch
  /-- `Attempted to schedule a fetch for a record without an id.` -/
  | identifierHasNoId
  /-- `No InternalModel found for ...` in `_findBelongsToByJsonApiResource`. -/
  | noInternalModelFound
  /-- A snapshot relationship assertion (missing/mismatched relationship). -/
  | badRelationship (type field : String)
deriving DecidableEq, Repr

/-- The whole store state: identifier cache tables, the per-type identity map of
internal models, schema, relationship graph data, the fetch coordinator's pending
table, record/snapshot handles, and the object heap used for snapshot attribute
copies. -/
structure Store where
  /-- Identifier object storage: `lid ↦` current `{type, id, lid}` value.
  Entries are never removed ("outstanding references remain valid"). -/
  idValues : List (String × IdentifierVal)
  /-- The lid lookup table: `lid ↦` canonical lid (a merge re-points the
  alternate's entry at the surviving identifier). -/
  lids : List (String × String)
  /-- The `(type, id)` lookup table: `(type, id) ↦ lid`. -/
  typeIds : List ((String × String) × String)
  /-- Counter for generated lids. -/
  nextLid : Nat
  /-- The identity map: `(type, lid) ↦` internal-model key. -/
  modelMap : List ((String × String) × Nat)
  /-- Internal-model storage by key. -/
  ims : List (Nat × InternalModel)
  /-- Fresh internal-model key counter. -/
  nextIm : Nat
  /-- Schema: the known model types (`doesTypeExist`). -/
  schemaTypes : List String
  /-- Schema: `(type, field) ↦` relationship kind (`relationshipsDefinitionFor`). -/
  schemaRels : List ((String × String) × RelKind)
  /-- Schema: `type ↦` attribute names (`attributesDefinitionFor`). -/
  schemaAttrs : List (String × List String)
  /-- Relationship graph: `(lid, field) ↦` edge data. -/
  graph : List ((String × String) × RelEdge)
  /-- Pending fetches: `lid ↦` promise handle. -/
  pendingFetches : List (String × Nat)
  /-- Fresh promise handle counter. -/
  nextPromise : Nat
  /-- Number of transport (adapter) calls dispatched. -/
  transportCalls : Nat
  /-- Log of `recordArrayManager.recordDidChange` notifications. -/
  recordDidChangeLog : List String
  /-- Materialized record handles: `lid ↦` record handle. -/
  records : List (String × Nat)
  /-- Fresh record handle counter. -/
  nextRecord : Nat
  /-- Fresh snapshot handle counter. -/
  nextSnapshot : Nat
  /-- The object heap for snapshot attribute dictionaries and arrays. -/
  heap : List (Nat × JObj)
  /-- Fresh heap address counter. -/
  nextAddr : Nat
  /-- Record-data attribute values: `lid ↦ (attribute name ↦ value)`. -/
  recordDatas : List (String × List (String × JVal))
  /-- Record-data changed-attribute diffs: `lid ↦ (attribute name ↦ address of
  the `[old, new]` array on the heap)`. -/
  changedAttrs : List (String × List (String × Nat))
deriving Repr

/-- Read an identifier object's current value through its handle (its lid). -/
def Store.idValue (st : Store) (lid : String) : IdentifierVal :=
  (Tbl.get st.idValues lid).getD ⟨"", none, lid⟩

/-- `modelMapFor(type).get(lid)` — identity-map lookup. -/
def Store.modelMapGet (st : Store) (type lid : String) : Option Nat :=
  Tbl.get st.modelMap (type, lid)

/-- Dereference an internal-model key. -/
def Store.getIM (st : Store) (k : Nat) : InternalModel :=
  (Tbl.get st.ims k).getD default

/-- Overwrite the internal model stored at a key. -/
def Store.setIM (st : Store) (k : Nat) (f : InternalModel → InternalModel) : Store :=
  { st with ims := Tbl.set st.ims k (f (st.getIM k)) }

/-- `doesTypeExist` (schema service). -/
def Store.doesTypeExist (st : Store) (type : String) : Bool :=
  st.schemaTypes.contains type

/-! ## The identifier-merge callback (`InternalModelFactory.__configureMerge`) -/

/-- The intended-identifier choice, internal-model-factory.ts lines 105–112:
prefer the identifier whose `id` (or, when ids agree, whose `type`) matches the
authoritative resource data; when ids agree and types agree, keep `identifier`. -/
def mergeChooseIntended (identifier matchedIdentifier : IdentifierVal)
    (resourceData : MergeResourceData) : IdentifierVal :=
  if identifier.id ≠ matchedIdentifier.id then
    match resourceData.id? with
    | some dataId => if identifier.id = dataId then identifier else matchedIdentifier
    | none => matchedIdentifier
  else if identifier.type ≠ matchedIdentifier.type then
    match resourceData.type? with
    | some dataType => if identifier.type = dataType then identifier else matchedIdentifier
    | none => matchedIdentifier
  else identifier

/-- The duplicate-internal-model conflict test, internal-model-factory.ts line 121:
`im && otherIm && im.hasRecord && otherIm.hasRecord`. -/
def Store.mergeHasConflict (st : Store) (im? otherIm? : Option Nat) : Bool :=
  match im?, otherIm? with
  | some imK, some otherK => (st.getIM imK).hasRecord && (st.getIM otherK).hasRecord
  | _, _ => false

/-- The re-pointing test, internal-model-factory.ts line 144:
`(im === null && otherIm !== null) || (im && !im.hasRecord && otherIm && otherIm.hasRecord)`. -/
def Store.mergeShouldUseOther (st : Store) (im? otherIm? : Option Nat) : Bool :=
  match im?, otherIm? with
  | none, some _ => true
  | some imK, some otherK => !(st.getIM imK).hasRecord && (st.getIM otherK).hasRecord
  | _, _ => false

/-- The merge callback installed by the `InternalModelFactory` constructor via
`identifierCache.__configureMerge` (internal-model-factory.ts lines 104–171).
Returns the intended identifier's lid, or the conflict error; the returned store
reflects the identity-map surgery performed by the callback. -/
def Store.configureMergeHook (st : Store) (identifierLid matchedLid : String)
    (resourceData : MergeResourceData) : Except StoreError String × Store :=
  let identifier := st.idValue identifierLid
  let matchedIdentifier := st.idValue matchedLid
  let intendedIdentifier := mergeChooseIntended identifier matchedIdentifier resourceData
  let altIdentifier := if identifier = intendedIdentifier then matchedIdentifier else identifier
  -- both identity-map lookups use `identifier.type`, as in the source
  let im? := st.modelMapGet identifier.type intendedIdentifier.lid
  let otherIm? := st.modelMapGet identifier.type altIdentifier.lid
  if st.mergeHasConflict im? otherIm? then
    (.error (.mergeConflict identifier matchedIdentifier), st)
  else
    -- remove otherIm from cache
    let st1 := match otherIm? with
      | some _ => { st with modelMap := Tbl.del st.modelMap (identifier.type, altIdentifier.lid) }
      | none => st
    match im?, otherIm? with
    | none, none => (.ok intendedIdentifier.lid, st1)
    | _, _ =>
      if st.mergeShouldUseOther im? otherIm? then
        let st2 := match im? with
          | some _ =>
            { st1 with modelMap := Tbl.del st1.modelMap (identifier.type, intendedIdentifier.lid) }
          | none => st1
        match otherIm? with
        | some otherK =>
          let st3 := st2.setIM otherK (fun im => { im with _id := intendedIdentifier.id })
          let st4 := { st3 with
            modelMap := Tbl.set st3.modelMap (identifier.type, intendedIdentifier.lid) otherK }
          (.ok intendedIdentifier.lid, st4)
        | none => (.ok intendedIdentifier.lid, st2)
      else
        (.ok intendedIdentifier.lid, st1)

/-! ## Internal-model state flags -/

/-- `internalModel.isEmpty` — in the `root.empty` state. -/
def InternalModel.isEmpty (im : InternalModel) : Bool :=
  match im.state with
  | .empty => true
  | _ => false

/-- `internalModel.isLoading` — in the `root.loading` state. -/
def InternalModel.isLoading (im : InternalModel) : Bool :=
  match im.state with
  | .loading => true
  | _ => false

/-- `internalModel.isLoaded` — has ever received a successful load. -/
def InternalModel.isLoaded (im : InternalModel) : Bool :=
  im.state.isLoadedState

/-- `internalModel.isDeleted()` — in the deleted branch of the state machine. -/
def InternalModel.isDeleted (im : InternalModel) : Bool :=
  match im.state with
  | .deleted => true
  | _ => false

/-- `internalModel.isNew()` — in the `created.*` branch. -/
def InternalModel.isNew (im : InternalModel) : Bool :=
  match im.state with
  | .created => true
  | _ => false

/-! ## Identifier cache operations (modelled from the spec, section 4.1) -/

/-- View an `ExistingResourceObject` as a resource identifier object. -/
def resourceOfData (d : ExistingResourceObject) : ResourceIdObj :=
  ⟨d.type, d.id, d.lid⟩

/-- View an identifier value as a resource identifier object (used when an
identifier itself is passed where a resource is expected). -/
def resourceOfIdentifier (v : IdentifierVal) : ResourceIdObj :=
  ⟨v.type, v.id, some v.lid⟩

/-- Non-creating `(type, id)` lookup. -/
def Store.peekByTypeId (st : Store) (type : String) (id : Option String) : Option String :=
  match id with
  | some i => Tbl.get st.typeIds (type, i)
  | none => none

/-- Modelled from the spec: `peekIdentifier` — non-creating lookup, first by
`lid`, else by `(type, id)`; returns none if not found. -/
def Store.peekRecordIdentifier (st : Store) (resource : ResourceIdObj) : Option String :=
  match resource.lid with
  | some l =>
    match Tbl.get st.lids l with
    | some canonical => some canonical
    | none => st.peekByTypeId resource.type resource.id
  | none => st.peekByTypeId resource.type resource.id

/-- Register a brand-new identifier for a resource, using the resource's `lid`
when given and generating a fresh one otherwise. -/
def Store.registerNewIdentifier (st : Store) (resource : ResourceIdObj) : Store × String :=
  let (l, bumped) := match resource.lid with
    | some l => (l, st.nextLid)
    | none => ("@lid:" ++ toString st.nextLid, st.nextLid + 1)
  let v : IdentifierVal := ⟨resource.type, resource.id, l⟩
  ({ st with
      idValues := Tbl.set st.idValues l v,
      lids := Tbl.set st.lids l l,
      typeIds := match resource.id with
        | some i => Tbl.set st.typeIds (resource.type, i) l
        | none => st.typeIds,
      nextLid := bumped }, l)

/-- The `(type, id)`-or-create fallback of `getOrCreateIdentifier`. -/
def Store.getOrCreateByTypeId (st : Store) (resource : ResourceIdObj) : Store × String :=
  match st.peekByTypeId resource.type resource.id with
  | some l => (st, l)
  | none => st.registerNewIdentifier resource

/-- Modelled from the spec: `getOrCreateIdentifier` — return the existing
identifier if the `lid` matches one on file, else if `(type, id)` matches one on
file, else create and register a new identifier. -/
def Store.getOrCreateRecordIdentifier (st : Store) (resource : ResourceIdObj) :
    Store × String :=
  match resource.lid with
  | some l =>
    match Tbl.get st.lids l with
    | some canonical => (st, canonical)
    | none => st.getOrCreateByTypeId resource
  | none => st.getOrCreateByTypeId resource

/-- Modelled from the spec: `forgetIdentifier` — remove the identifier from the
lookup tables; already-held references stay valid (`idValues` keeps the entry). -/
def Store.forgetRecordIdentifier (st : Store) (lid : String) : Store :=
  let v := st.idValue lid
  { st with
    lids := Tbl.del st.lids lid,
    typeIds := match v.id with
      | some i => Tbl.del st.typeIds (v.type, i)
      | none => st.typeIds }

/-- Modelled from the spec: `createIdentifierForNewRecord` — always creates a
fresh identifier, failing if a non-null `id` collides with a registered one. -/
def Store.createIdentifierForNewRecord (st : Store) (type : String) (id : Option String) :
    Except StoreError String × Store :=
  match id with
  | some i =>
    match Tbl.get st.typeIds (type, i) with
    | some _ => (.error (.idInUse type i), st)
    | none =>
      let (st1, l) := st.registerNewIdentifier ⟨type, id, none⟩
      (.ok l, st1)
  | none =>
    let (st1, l) := st.registerNewIdentifier ⟨type, id, none⟩
    (.ok l, st1)

/-- Update the `id` of the identifier `lid` in place: rewrite its stored value and
move its `(type, id)` table entry. -/
def Store.setIdentifierId (st : Store) (lid : String) (newId : String) : Store :=
  let cur := st.idValue lid
  { st with
    idValues := Tbl.set st.idValues lid { cur with id := some newId },
    typeIds := Tbl.set
      (match cur.id with
        | some oldId => Tbl.del st.typeIds (cur.type, oldId)
        | none => st.typeIds)
      (cur.type, newId) lid }

/-- Modelled from the spec: `updateIdentifier` — when a server response reveals an
`id`, update the identifier in place; if that would make two registered identifiers
denote the same `(type, id)`, run the merge protocol (the configured merge callback
picks the survivor and performs the identity-map surgery; the cache then forgets the
alternate, re-points the alternate's lid at the survivor so both original handles
keep resolving, and returns the canonical identifier). -/
def Store.updateRecordIdentifier (st : Store) (identifierLid : String)
    (data : ExistingResourceObject) : Except StoreError String × Store :=
  let cur := st.idValue identifierLid
  match data.id with
  | none => (.ok identifierLid, st)
  | some newId =>
    if cur.id = some newId then (.ok identifierLid, st)
    else
      match Tbl.get st.typeIds (cur.type, newId) with
      | some matchedLid =>
        if matchedLid = identifierLid then
          (.ok identifierLid, st.setIdentifierId identifierLid newId)
        else
          match st.configureMergeHook identifierLid matchedLid ⟨some data.id, some data.type⟩ with
          | (.error e, st1) => (.error e, st1)
          | (.ok intendedLid, st1) =>
            let abandonedLid := if intendedLid = identifierLid then matchedLid else identifierLid
            let st2 := st1.forgetRecordIdentifier abandonedLid
            let st3 := { st2 with lids := Tbl.set st2.lids abandonedLid intendedLid }
            (.ok intendedLid, st3.setIdentifierId intendedLid newId)
      | none =>
        (.ok identifierLid, st.setIdentifierId identifierLid newId)

/-! ## InternalModelFactory operations (internal-model-factory.ts) -/

/-- `InternalModelFactory.peek` — `modelMapFor(identifier.type).get(identifier.lid)`. -/
def Store.factoryPeek (st : Store) (identifierLid : String) : Option Nat :=
  st.modelMapGet (st.idValue identifierLid).type identifierLid

/-- `_build(identifier, false)` — construct a brand-new internal model for an
existing identifier and add it to the identity map. -/
def Store.buildExisting (st : Store) (identifierLid : String) : Store × Nat :=
  let identifier := st.idValue identifierLid
  let im : InternalModel :=
    { modelName := identifier.type, lid := identifierLid, _id := identifier.id,
      state := .empty, hasRecord := false, scheduledDestroy := false,
      isDestroyed := false, lastData := none }
  let k := st.nextIm
  ({ st with
      ims := Tbl.set st.ims k im,
      nextIm := st.nextIm + 1,
      modelMap := Tbl.set st.modelMap (identifier.type, identifierLid) k }, k)

/-- `InternalModelFactory.lookup(resource, data?)` — when data is supplied, give
the secondary lid caches the chance to populate; resolve (or create) the
identifier; if an internal model exists, cancel any scheduled destroy and return
it, else `_build` a new one. -/
def Store.factoryLookup (st : Store) (resource : ResourceIdObj)
    (data : Option ExistingResourceObject) : Store × Nat :=
  let st0 := match data with
    | some d => (st.getOrCreateRecordIdentifier (resourceOfData d)).1
    | none => st
  let (st1, identifierLid) := st0.getOrCreateRecordIdentifier resource
  match st1.factoryPeek identifierLid with
  | some k =>
    if (st1.getIM k).scheduledDestroy then
      (st1.setIM k (fun im => { im with scheduledDestroy := false }), k)
    else (st1, k)
  | none => st1.buildExisting identifierLid

/-- `constructResource` — normalizes a `{ type, id?, lid? }` argument shape; on a
resource identifier object it is the identity. -/
def constructResource (resource : ResourceIdObj) : ResourceIdObj := resource

/-- `CoreStore._internalModelForResource` — `internalModelFactoryFor(this).getByResource`,
which is `lookup(constructResource(resource))`. -/
def Store._internalModelForResource (st : Store) (resource : ResourceIdObj) : Store × Nat :=
  st.factoryLookup (constructResource resource) none

/-- `InternalModelFactory.remove` — drop the internal model from the identity map
and forget its identifier. -/
def Store.factoryRemove (st : Store) (k : Nat) : Store :=
  let im := st.getIM k
  let st1 := { st with modelMap := Tbl.del st.modelMap (im.modelName, im.lid) }
  st1.forgetRecordIdentifier im.lid

/-- Modelled from the spec: `InternalModel.destroySync` — execute the teardown
synchronously (used when a client-side create races an unload); the entry is
removed from the identity map and its identifier forgotten (delegating to
`InternalModelFactory.remove`), and the instance is marked destroyed. -/
def Store.destroySync (st : Store) (k : Nat) : Store :=
  (st.factoryRemove k).setIM k
    (fun im => { im with isDestroyed := true, scheduledDestroy := false })

/-- `InternalModelFactory.peekById` — peek the identifier by `(type, id)` and the
internal model by lid; if the found entry has a scheduled destroy, run
`destroySync` and report no entry. -/
def Store.peekById (st : Store) (type id : String) : Store × Option Nat :=
  let identifier? := st.peekRecordIdentifier ⟨type, some id, none⟩
  let im? := match identifier? with
    | some l => st.modelMapGet type l
    | none => none
  match im? with
  | some k =>
    if (st.getIM k).scheduledDestroy then (st.destroySync k, none)
    else (st, some k)
  | none => (st, none)

/-- `_build(resource, true)` — the create path: check for an id collision via
`peekById`, create a fresh identifier (`createIdentifierForNewRecord`), construct
the internal model and add it to the identity map. -/
def Store.buildCreate (st : Store) (type : String) (id : Option String) :
    Except StoreError Nat × Store :=
  let (st0, collision) := match id with
    | some i =>
      if i = "" then (st, false)
      else
        let (s, existing?) := st.peekById type i
        (s, existing?.isSome)
    | none => (st, false)
  if collision then
    (.error (.idInUse type (id.getD "")), st0)
  else
    match st0.createIdentifierForNewRecord type id with
    | (.error e, st1) => (.error e, st1)
    | (.ok lid, st1) =>
      let im : InternalModel :=
        { modelName := type, lid := lid, _id := id,
          state := .empty, hasRecord := false, scheduledDestroy := false,
          isDestroyed := false, lastData := none }
      let k := st1.nextIm
      (.ok k, { st1 with
        ims := Tbl.set st1.ims k im,
        nextIm := st1.nextIm + 1,
        modelMap := Tbl.set st1.modelMap (type, lid) k })

/-! ## `_load`, `_push` and `push` (core-store.ts) -/

/-- `normalizeModelName` dasherizes a type name; as documented for `push`, payload
types are already in singular, dasherized form, on which it is the identity. -/
def normalizeModelName (modelName : String) : String := modelName

/-- `ensureStringId` — coerce a validated non-null id to a string. -/
def ensureStringId (id : Option String) : String := id.getD ""

/-- `coerceId` — `null`/`undefined` stay absent. -/
def coerceId (id : Option String) : Option String := id

/-- The `_load` id validation: `data.id !== null && data.id !== undefined && data.id !== ''`. -/
def validPushId : Option String → Bool
  | none => false
  | some s => if s = "" then false else true

/-- Modelled from the spec: `InternalModel.setupData` — apply pushed data to the
entry; the entry becomes loaded. -/
def Store.setupData (st : Store) (k : Nat) (data : ExistingResourceObject) : Store :=
  st.setIM k (fun im => { im with state := .loaded, lastData := some data })

/-- `CoreStore._load` (core-store.ts lines 2125–2203): validate the pushed
resource (id present and non-empty, type known), resolve/create the identifier and
internal model, update the identifier from the data when this is an update or a
load-completion (which may trigger an identifier merge, after which the internal
model is re-resolved), apply the data via `setupData`, and notify record arrays
for non-updates.  Returns the (stable, existing) identifier. -/
def Store._load (st : Store) (data : ExistingResourceObject) :
    Except StoreError String × Store :=
  let modelName := data.type
  if validPushId data.id = false then (.error (.missingId modelName), st)
  else if st.doesTypeExist modelName = false then (.error (.unknownType modelName), st)
  else
    let resource : ResourceIdObj :=
      ⟨normalizeModelName data.type, some (ensureStringId data.id), coerceId data.lid⟩
    let maybeIdentifier := st.peekRecordIdentifier resource
    let (st1, imK) := st.factoryLookup resource (some data)
    let im := st1.getIM imK
    let isLoading := im.isLoading || (!im.isLoaded && maybeIdentifier.isSome)
    let isUpdate := !im.isEmpty && !isLoading
    let identifierLid := im.lid
    match (if isUpdate || isLoading then st1.updateRecordIdentifier identifierLid data
           else (.ok identifierLid, st1)) with
    | (.error e, st2) => (.error e, st2)
    | (.ok updatedLid, st2) =>
      let (st3, finalLid, finalK) :=
        if updatedLid ≠ identifierLid then
          let (s, k2) := st2.factoryLookup (resourceOfIdentifier (st2.idValue updatedLid)) none
          (s, updatedLid, k2)
        else (st2, identifierLid, imK)
      let st4 := st3.setupData finalK data
      let st5 := if isUpdate then st4
        else { st4 with recordDidChangeLog := finalLid :: st4.recordDidChangeLog }
      (.ok finalLid, st5)

/-- The `data` member of a document passed to `push`. -/
inductive PushDocData where
  | one (r : ExistingResourceObject)
  | many (rs : List ExistingResourceObject)
  | nullData
deriving DecidableEq, Repr

/-- A normalized JSON:API document passed to `push`/`_push`. -/
structure JsonApiDocument where
  data : PushDocData
  included : Option (List ExistingResourceObject)
deriving DecidableEq, Repr

/-- Every resource object appearing in the document's `data` or `included` members. -/
def JsonApiDocument.allResources (doc : JsonApiDocument) : List ExistingResourceObject :=
  doc.included.getD [] ++
    (match doc.data with
      | .one r => [r]
      | .many rs => rs
      | .nullData => [])

/-- The identifier(s) produced by `_push`. -/
inductive PushResult where
  | one (lid : String)
  | many (lids : List String)
  | nullResult
deriving DecidableEq, Repr

/-- Sequential `_load` of a list of resources (the `included`/`data` loops of
`_push`), stopping at the first failure as a thrown assertion does. -/
def Store._loadAll (st : Store) : List ExistingResourceObject →
    Except StoreError (List String) × Store
  | [] => (.ok [], st)
  | r :: rest =>
    match st._load r with
    | (.error e, st1) => (.error e, st1)
    | (.ok l, st1) =>
      match st1._loadAll rest with
      | (.error e, st2) => (.error e, st2)
      | (.ok ls, st2) => (.ok (l :: ls), st2)

/-- `CoreStore._push` (core-store.ts lines 2386–2426): load every `included`
resource, then the primary `data` (single, array, or null). -/
def Store._push (st : Store) (doc : JsonApiDocument) : Except StoreError PushResult × Store :=
  match (match doc.included with
         | some included => st._loadAll included
         | none => (.ok [], st)) with
  | (.error e, st1) => (.error e, st1)
  | (.ok _, st1) =>
    match doc.data with
    | .many rs =>
      match st1._loadAll rs with
      | (.error e, st2) => (.error e, st2)
      | (.ok ls, st2) => (.ok (.many ls), st2)
    | .nullData => (.ok .nullResult, st1)
    | .one r =>
      match st1._load r with
      | (.error e, st2) => (.error e, st2)
      | (.ok l, st2) => (.ok (.one l), st2)

/-- Modelled from the spec: `InstanceCache.getRecord` — materialize (at most once)
the presentation object for an identifier. -/
def Store.getRecord (st : Store) (identifierLid : String) : Store × Nat :=
  match Tbl.get st.records identifierLid with
  | some r => (st, r)
  | none =>
    let r := st.nextRecord
    let (st1, k) := st._internalModelForResource (resourceOfIdentifier (st.idValue identifierLid))
    let st2 := st1.setIM k (fun im => { im with hasRecord := true })
    ({ st2 with records := Tbl.set st2.records identifierLid r, nextRecord := r + 1 }, r)

/-- The record(s) produced by the public `push`. -/
inductive PushedRecords where
  | one (record : Nat)
  | many (records : List Nat)
  | nullResult
deriving DecidableEq, Repr

/-- Materialize records for a list of pushed identifiers. -/
def Store.getRecordsAll (st : Store) : List String → Store × List Nat
  | [] => (st, [])
  | l :: rest =>
    let (st1, r) := st.getRecord l
    let (st2, rs) := st1.getRecordsAll rest
    (st2, r :: rs)

/-- `CoreStore.push` (core-store.ts lines 2356–2375): `_push` then materialize. -/
def Store.push (st : Store) (doc : JsonApiDocument) :
    Except StoreError PushedRecords × Store :=
  match st._push doc with
  | (.error e, st1) => (.error e, st1)
  | (.ok (.many lids), st1) =>
    let (st2, rs) := st1.getRecordsAll lids
    (.ok (.many rs), st2)
  | (.ok .nullResult, st1) => (.ok .nullResult, st1)
  | (.ok (.one lid), st1) =>
    let (st2, r) := st1.getRecord lid
    (.ok (.one r), st2)

/-! ## Fetch coordination (FetchManager modelled from the spec; callers from core-store.ts) -/

/-- Modelled from the spec: `FetchManager.getPendingFetch` — non-creating peek
into the pending-fetch table. -/
def Store.getPendingFetch (st : Store) (identifierLid : String) : Option Nat :=
  Tbl.get st.pendingFetches identifierLid

/-- Modelled from the spec: `FetchManager.scheduleFetch` — if a pending fetch
exists for this identifier, return the same promise; otherwise dispatch one
transport request, record a pending entry, and return the new promise. -/
def Store.scheduleFetch (st : Store) (identifierLid : String) : Store × Nat :=
  match st.getPendingFetch identifierLid with
  | some p => (st, p)
  | none =>
    let p := st.nextPromise
    ({ st with
        pendingFetches := Tbl.set st.pendingFetches identifierLid p,
        nextPromise := p + 1,
        transportCalls := st.transportCalls + 1 }, p)

/-- Find options; only the presence of `preload` is material to the modelled paths. -/
structure FindOptions where
  preload : Bool
deriving DecidableEq, Repr

/-- Modelled from the spec: `InternalModel.preloadData` — pre-loading supplies
data, changing the `isEmpty` value. -/
def Store.preloadData (st : Store) (k : Nat) : Store :=
  st.setIM k (fun im =>
    { im with state := match im.state with | .empty => .loaded | s => s })

/-- Modelled from the spec: `InstanceCache.getInternalModel` — resolve (creating
on demand) the Record Cache Entry for an identifier. -/
def Store.getInternalModel (st : Store) (identifierLid : String) : Store × Nat :=
  st._internalModelForResource (resourceOfIdentifier (st.idValue identifierLid))

/-- The promise returned by `_fetchDataIfNeededForIdentifier`. -/
inductive FetchNeededResult where
  | scheduled (p : Nat)
  | pendingUsed (p : Nat)
  | resolvedLocal (lid : String)
deriving DecidableEq, Repr

/-- `CoreStore._fetchDataIfNeededForIdentifier` (core-store.ts lines 1119–1149):
read the entry's `isEmpty`/`isLoading` flags (before any preload), apply a
preload if given, then: empty → `scheduleFetch`; loading → the pending fetch
(asserting one exists); else resolve locally. -/
def Store._fetchDataIfNeededForIdentifier (st : Store) (identifierLid : String)
    (options : FindOptions) : Except StoreError FetchNeededResult × Store :=
  let (st1, k) := st.getInternalModel identifierLid
  let isEmpty := (st1.getIM k).isEmpty
  let isLoading := (st1.getIM k).isLoading
  let st2 := if options.preload then st1.preloadData k else st1
  if isEmpty then
    if (st2.idValue identifierLid).id = none then (.error .identifierHasNoId, st2)
    else
      let (st3, p) := st2.scheduleFetch identifierLid
      (.ok (.scheduled p), st3)
  else if isLoading then
    match st2.getPendingFetch identifierLid with
    | some p => (.ok (.pendingUsed p), st2)
    | none => (.error .noPendingFetch, st2)
  else (.ok (.resolvedLocal identifierLid), st2)

/-- The relationship-edge state flags read by `_findBelongsToByJsonApiResource`. -/
structure RelationshipState where
  isStale : Bool
  hasDematerializedInverse : Bool
  hasReceivedData : Bool
  isEmpty : Bool
  shouldForceReload : Bool
deriving DecidableEq, Repr

/-- The `resource` argument of `_findBelongsToByJsonApiResource`: the belongs-to
relationship's `data` linkage (`none` = undefined, `some none` = null), its
related link, and its `_relationship.state`. -/
structure BelongsToResource where
  data : Option (Option ResourceIdObj)
  linksRelated : Option String
  relState : RelationshipState
deriving DecidableEq, Repr

/-- `internalModelForRelatedResource` (core-store.ts lines 3025–3032). -/
def Store.internalModelForRelatedResource (st : Store) (resource : ResourceIdObj) :
    Store × Nat :=
  let (st1, identifierLid) := st.getOrCreateRecordIdentifier resource
  st1._internalModelForResource (resourceOfIdentifier (st1.idValue identifierLid))

/-- `areAllInverseRecordsLoaded` (core-store.ts lines 3003–3023), restricted to
the single-resource shape a belongs-to relationship carries: true when there is no
related resource; otherwise true iff the related entry is not empty. -/
def Store.areAllInverseRecordsLoaded (st : Store) (data : Option (Option ResourceIdObj)) :
    Store × Bool :=
  match data with
  | some (some r) =>
    let (st1, k) := st.internalModelForRelatedResource r
    (st1, !(st1.getIM k).isEmpty)
  | _ => (st, true)

/-- The promise returned by `_findBelongsToByJsonApiResource`. -/
inductive BelongsToFindResult where
  | resolvedNull
  | pendingFound (p : Nat)
  | viaLink
  | fetchNeeded (r : FetchNeededResult)
  | resolvedIdentifier (lid : String)
  | scheduledFetch (p : Nat)
deriving DecidableEq, Repr

/-- `CoreStore._findBelongsToByJsonApiResource` (core-store.ts lines 1439–1514):
resolve the related internal model from the linkage, compute the link/staleness
flags, short-circuit on an already-pending fetch for the related identifier,
otherwise fetch via link, local cache, or data. -/
def Store._findBelongsToByJsonApiResource (st : Store)
    (resource? : Option BelongsToResource) (options : FindOptions) :
    Except StoreError BelongsToFindResult × Store :=
  match resource? with
  | none => (.ok .resolvedNull, st)
  | some resource =>
    let (st1, internalModel?) := match resource.data with
      | some (some linkage) =>
        let (s, k) := st._internalModelForResource linkage
        (s, some k)
      | _ => (st, none)
    let s := resource.relState
    let (st2, allInverseRecordsAreLoaded) := st1.areAllInverseRecordsLoaded resource.data
    let shouldFindViaLink := resource.linksRelated.isSome &&
      (s.shouldForceReload || s.hasDematerializedInverse || s.isStale ||
        (!allInverseRecordsAreLoaded && !s.isEmpty))
    -- short circuit if we are already loading
    match (match internalModel? with
           | some k => st2.getPendingFetch (st2.getIM k).lid
           | none => none) with
    | some p => (.ok (.pendingFound p), st2)
    | none =>
      if shouldFindViaLink then (.ok .viaLink, st2)
      else
        let dataTruthy := match resource.data with
          | some (some _) => true
          | _ => false
        let preferLocalCache := s.hasReceivedData && allInverseRecordsAreLoaded && !s.isEmpty
        let hasLocalPartialData := s.hasDematerializedInverse || (s.isEmpty && dataTruthy)
        let localDataIsEmpty := !dataTruthy
        if !s.shouldForceReload && !s.isStale && (preferLocalCache || hasLocalPartialData) then
          if localDataIsEmpty then (.ok .resolvedNull, st2)
          else
            match internalModel? with
            | none => (.error .noInternalModelFound, st2)
            | some k =>
              match st2._fetchDataIfNeededForIdentifier (st2.getIM k).lid options with
              | (.error e, st3) => (.error e, st3)
              | (.ok r, st3) => (.ok (.fetchNeeded r), st3)
        else
          let resourceIsLocal := !localDataIsEmpty &&
            (match resource.data with
             | some (some linkage) => linkage.id.isNone
             | _ => false)
          match internalModel? with
          | some k =>
            if resourceIsLocal then (.ok (.resolvedIdentifier (st2.getIM k).lid), st2)
            else if !localDataIsEmpty then
              if (st2.idValue (st2.getIM k).lid).id = none then (.error .identifierHasNoId, st2)
              else
                let (st3, p) := st2.scheduleFetch (st2.getIM k).lid
                (.ok (.scheduledFetch p), st3)
            else (.ok .resolvedNull, st2)
          | none => (.ok .resolvedNull, st2)

/-! ## Heap operations (object identity for snapshot attribute copies) -/

/-- Allocate a fresh heap object, returning its address. -/
def Store.allocObj (st : Store) (o : JObj) : Store × Nat :=
  ({ st with heap := Tbl.set st.heap st.nextAddr o, nextAddr := st.nextAddr + 1 },
    st.nextAddr)

/-- The entries of the dictionary at an address (empty if absent or not a dict). -/
def Store.dictContents (st : Store) (a : Nat) : List (String × JVal) :=
  match Tbl.get st.heap a with
  | some (.dict es) => es
  | _ => []

/-- The elements of the array at an address (empty if absent or not an array). -/
def Store.arrContents (st : Store) (a : Nat) : List JVal :=
  match Tbl.get st.heap a with
  | some (.arr es) => es
  | _ => []

/-- An arbitrary in-place mutation of the heap object at an address — the model of
a caller mutating a returned object. -/
def Store.setObj (st : Store) (a : Nat) (o : JObj) : Store :=
  { st with heap := Tbl.set st.heap a o }

/-- Heap well-formedness: every allocated address is below the allocation counter. -/
def Store.heapWF (st : Store) : Prop :=
  ∀ e ∈ st.heap, e.1 < st.nextAddr

/-! ## Snapshot (snapshot.ts) -/

/-- The `Snapshot` instance state: identity fields, the four relationship
memoization dictionaries (an entry present with value `none` models a key set to
`undefined`), the lazily-populated `__attributes` dictionary address, and the
`_changedAttributes` diff captured at construction. -/
structure Snapshot where
  identifierLid : String
  modelName : String
  id : Option String
  _belongsToRelationships : List (String × Option (Option Nat))
  _belongsToIds : List (String × Option (Option String))
  _hasManyRelationships : List (String × Option (List Nat))
  _hasManyIds : List (String × Option (List (Option String)))
  __attributes : Option Nat
  _changedAttributes : Option (List (String × Nat))
deriving DecidableEq, Repr

/-- The attribute dictionary entries the `_attributes` getter (snapshot.ts lines
155–173) builds: every schema attribute's current record-data value. -/
def Store.attributeEntries (st : Store) (snap : Snapshot) : List (String × JVal) :=
  ((Tbl.get st.schemaAttrs snap.modelName).getD []).map
    (fun keyName =>
      (keyName,
       (Tbl.get ((Tbl.get st.recordDatas snap.identifierLid).getD []) keyName).getD JVal.undef))

/-- The body of the `_attributes` getter. -/
def Store.populateAttributes (st : Store) (snap : Snapshot) : Store × Snapshot × Nat :=
  match snap.__attributes with
  | some a => (st, snap, a)
  | none =>
    let (st1, addr) := st.allocObj (JObj.dict (st.attributeEntries snap))
    (st1, { snap with __attributes := some addr }, addr)

/-- The `Snapshot` constructor (snapshot.ts lines 66–135): record identity fields;
when the internal model has a materialized record, populate `_attributes` eagerly
and capture the record data's changed-attributes diff. -/
def Store.newSnapshot (st : Store) (identifierLid : String) : Store × Snapshot :=
  let (st0, k) := st._internalModelForResource (resourceOfIdentifier (st.idValue identifierLid))
  let identifier := st0.idValue identifierLid
  let base : Snapshot :=
    { identifierLid := identifierLid, modelName := identifier.type, id := identifier.id,
      _belongsToRelationships := [], _belongsToIds := [],
      _hasManyRelationships := [], _hasManyIds := [],
      __attributes := none, _changedAttributes := none }
  if (st0.getIM k).hasRecord then
    let (st1, snap1, _) := st0.populateAttributes base
    (st1, { snap1 with
      _changedAttributes := some ((Tbl.get st1.changedAttrs identifierLid).getD []) })
  else (st0, base)

/-- Modelled from the spec: `InstanceCache.createSnapshot` — construct a fresh
`Snapshot` for the identifier (snapshots are per-request); snapshot object
identity is modelled by a fresh handle. -/
def Store.createSnapshot (st : Store) (identifierLid : String) : Store × Nat :=
  let (st1, _) := st.newSnapshot identifierLid
  let h := st1.nextSnapshot
  ({ st1 with nextSnapshot := h + 1 }, h)

/-- `Snapshot.attributes()` (snapshot.ts lines 227–229): `{ ...this._attributes }`
— a fresh shallow copy of the attribute dictionary. -/
def Snapshot.attributes (snap : Snapshot) (st : Store) : Store × Snapshot × Nat :=
  let (st1, snap1, a) := st.populateAttributes snap
  let (st2, addr) := st1.allocObj (JObj.dict (st1.dictContents a))
  (st2, snap1, addr)

/-- The per-key copy loop of `Snapshot.changedAttributes()`:
`changedAttributes[key] = this._changedAttributes[key].slice()`. -/
def Store.copyChangedEntries (st : Store) : List (String × Nat) → Store × List (String × JVal)
  | [] => (st, [])
  | (key, a) :: rest =>
    let (st1, newA) := st.allocObj (JObj.arr (st.arrContents a))
    let (st2, es) := st1.copyChangedEntries rest
    (st2, (key, JVal.ref newA) :: es)

/-- `Snapshot.changedAttributes()` (snapshot.ts lines 246–260): a fresh dictionary
holding, per changed key, a sliced copy of the `[old, new]` pair. -/
def Snapshot.changedAttributes (snap : Snapshot) (st : Store) : Store × Nat :=
  match snap._changedAttributes with
  | none => st.allocObj (JObj.dict [])
  | some ca =>
    let (st1, entries) := st.copyChangedEntries ca
    st1.allocObj (JObj.dict entries)

/-- The value returned by `Snapshot.belongsTo`: per return mode, `undefined`
(`none`), `null` (`some none`), or an id / snapshot handle. -/
inductive BelongsToOut where
  | idOut (r : Option (Option String))
  | snapOut (r : Option (Option Nat))
deriving DecidableEq, Repr

/-- The uncached computation of `Snapshot.belongsTo` (snapshot.ts lines 312–367):
check the schema relationship, read the graph edge's data, resolve the inverse
internal model, drop deleted inverses (result `null`), and memoize the result
(even `undefined`) in the per-mode dictionary. -/
def Snapshot.belongsToCompute (snap : Snapshot) (st : Store) (keyName : String)
    (returnModeIsId : Bool) : Except StoreError BelongsToOut × Snapshot × Store :=
  match Tbl.get st.schemaRels (snap.modelName, keyName) with
  | some RelKind.belongsTo =>
    match Tbl.get st.graph (snap.identifierLid, keyName) with
    | some (RelEdge.one value) =>
      let (st1, inverse?) := match value with
        | some (some data) =>
          let (s, k) := st._internalModelForResource data
          (s, some k)
        | _ => (st, none)
      if returnModeIsId then
        let result : Option (Option String) :=
          match value, inverse? with
          | some _, some k =>
            if (st1.getIM k).isDeleted then some none else some (st1.getIM k)._id
          | some _, none => some none
          | none, _ => none
        (.ok (.idOut result),
          { snap with _belongsToIds := Tbl.set snap._belongsToIds keyName result }, st1)
      else
        match value, inverse? with
        | some _, some k =>
          if (st1.getIM k).isDeleted then
            (.ok (.snapOut (some none)),
              { snap with
                _belongsToRelationships :=
                  Tbl.set snap._belongsToRelationships keyName (some none) }, st1)
          else
            let (st2, h) := st1.createSnapshot (st1.getIM k).lid
            (.ok (.snapOut (some (some h))),
              { snap with
                _belongsToRelationships :=
                  Tbl.set snap._belongsToRelationships keyName (some (some h)) }, st2)
        | some _, none =>
          (.ok (.snapOut (some none)),
            { snap with
              _belongsToRelationships :=
                Tbl.set snap._belongsToRelationships keyName (some none) }, st1)
        | none, _ =>
          (.ok (.snapOut none),
            { snap with
              _belongsToRelationships :=
                Tbl.set snap._belongsToRelationships keyName none }, st1)
    | some (RelEdge.many _) => (.error (.badRelationship snap.modelName keyName), snap, st)
    | none => (.error (.badRelationship snap.modelName keyName), snap, st)
  | _ => (.error (.badRelationship snap.modelName keyName), snap, st)

/-- `Snapshot.belongsTo(keyName, options)` (snapshot.ts lines 298–368): return the
memoized value for the requested mode when present, else compute and memoize. -/
def Snapshot.belongsTo (snap : Snapshot) (st : Store) (keyName : String)
    (returnModeIsId : Bool) : Except StoreError BelongsToOut × Snapshot × Store :=
  if returnModeIsId then
    match Tbl.get snap._belongsToIds keyName with
    | some cached => (.ok (.idOut cached), snap, st)
    | none => snap.belongsToCompute st keyName true
  else
    match Tbl.get snap._belongsToRelationships keyName with
    | some cached => (.ok (.snapOut cached), snap, st)
    | none => snap.belongsToCompute st keyName false

/-- The value returned by `Snapshot.hasMany`: per return mode, `undefined`
(`none`) or the member ids / snapshot handles. -/
inductive HasManyOut where
  | idsOut (r : Option (List (Option String)))
  | snapsOut (r : Option (List Nat))
deriving DecidableEq, Repr

/-- `member.id || null` for the ids mode of `Snapshot.hasMany`. -/
def memberIdOrNull (member : ResourceIdObj) : Option String :=
  match member.id with
  | some s => if s = "" then none else some s
  | none => none

/-- The ids-mode member loop of `Snapshot.hasMany` (snapshot.ts lines 448–462):
resolve each member's internal model, skip deleted ones, collect `member.id || null`. -/
def Store.hasManyIdsLoop (st : Store) : List ResourceIdObj → Store × List (Option String)
  | [] => (st, [])
  | member :: rest =>
    let (st1, k) := st._internalModelForResource member
    if (st1.getIM k).isDeleted then st1.hasManyIdsLoop rest
    else
      let (st2, tl) := st1.hasManyIdsLoop rest
      (st2, memberIdOrNull member :: tl)

/-- The snapshots-mode member loop of `Snapshot.hasMany`: resolve each member's
internal model, skip deleted ones, collect a fresh sub-snapshot per member. -/
def Store.hasManySnapshotsLoop (st : Store) : List ResourceIdObj → Store × List Nat
  | [] => (st, [])
  | member :: rest =>
    let (st1, k) := st._internalModelForResource member
    if (st1.getIM k).isDeleted then st1.hasManySnapshotsLoop rest
    else
      let (st2, h) := st1.createSnapshot (st1.getIM k).lid
      let (st3, tl) := st2.hasManySnapshotsLoop rest
      (st3, h :: tl)

/-- The uncached computation of `Snapshot.hasMany` (snapshot.ts lines 414–472):
check the schema relationship, read the graph edge's member array, run the
per-member loop, and memoize the result (even `undefined`). -/
def Snapshot.hasManyCompute (snap : Snapshot) (st : Store) (keyName : String)
    (returnModeIsIds : Bool) : Except StoreError HasManyOut × Snapshot × Store :=
  match Tbl.get st.schemaRels (snap.modelName, keyName) with
  | some RelKind.hasMany =>
    match Tbl.get st.graph (snap.identifierLid, keyName) with
    | some (RelEdge.many value) =>
      match value with
      | some members =>
        if returnModeIsIds then
          let (st1, ids) := st.hasManyIdsLoop members
          (.ok (.idsOut (some ids)),
            { snap with _hasManyIds := Tbl.set snap._hasManyIds keyName (some ids) }, st1)
        else
          let (st1, hs) := st.hasManySnapshotsLoop members
          (.ok (.snapsOut (some hs)),
            { snap with
              _hasManyRelationships :=
                Tbl.set snap._hasManyRelationships keyName (some hs) }, st1)
      | none =>
        if returnModeIsIds then
          (.ok (.idsOut none),
            { snap with _hasManyIds := Tbl.set snap._hasManyIds keyName none }, st)
        else
          (.ok (.snapsOut none),
            { snap with
              _hasManyRelationships :=
                Tbl.set snap._hasManyRelationships keyName none }, st)
    | some (RelEdge.one _) => (.error (.badRelationship snap.modelName keyName), snap, st)
    | none => (.error (.badRelationship snap.modelName keyName), snap, st)
  | _ => (.error (.badRelationship snap.modelName keyName), snap, st)

/-- `Snapshot.hasMany(keyName, options)` (snapshot.ts lines 400–473): return the
memoized value for the requested mode when present, else compute and memoize. -/
def Snapshot.hasMany (snap : Snapshot) (st : Store) (keyName : String)
    (returnModeIsIds : Bool) : Except StoreError HasManyOut × Snapshot × Store :=
  if returnModeIsIds then
    match Tbl.get snap._hasManyIds keyName with
    | some cached => (.ok (.idsOut cached), snap, st)
    | none => snap.hasManyCompute st keyName true
  else
    match Tbl.get snap._hasManyRelationships keyName with
    | some cached => (.ok (.snapsOut cached), snap, st)
    | none => snap.hasManyCompute st keyName false

/-! ## Concrete base store for witnesses -/

/-- An empty store, the base for the concrete example states. -/
def baseStore : Store :=
  { idValues := [], lids := [], typeIds := [], nextLid := 0, modelMap := [], ims := [],
    nextIm := 0, schemaTypes := [], schemaRels := [], schemaAttrs := [], graph := [],
    pendingFetches := [], nextPromise := 0, transportCalls := 0, recordDidChangeLog := [],
    records := [], nextRecord := 0, nextSnapshot := 0, heap := [], nextAddr := 0,
    recordDatas := [], changedAttrs := [] }

/-- A store with two identifiers of type `person` (lids `l1`, `l2`, ids `1`/`2`)
whose internal models both have materialized records. -/
def twoLiveStore : Store :=
  { baseStore with
    idValues := [("l1", ⟨"person", some "1", "l1"⟩), ("l2", ⟨"person", some "2", "l2"⟩)],
    lids := [("l1", "l1"), ("l2", "l2")],
    typeIds := [(("person", "1"), "l1"), (("person", "2"), "l2")],
    modelMap := [(("person", "l1"), 0), (("person", "l2"), 1)],
    ims := [(0, { modelName := "person", lid := "l1", _id := some "1", state := .loaded,
                  hasRecord := true, scheduledDestroy := false, isDestroyed := false,
                  lastData := none }),
            (1, { modelName := "person", lid := "l2", _id := some "2", state := .loaded,
                  hasRecord := true, scheduledDestroy := false, isDestroyed := false,
                  lastData := none })],
    nextIm := 2,
    schemaTypes := ["person"] }

/-- A store with one identifier of type `person` (lid `l1`, id `1`) whose internal
model has a scheduled (not yet executed) destroy. -/
def scheduledDestroyStore : Store :=
  { baseStore with
    idValues := [("l1", ⟨"person", some "1", "l1"⟩)],
    lids := [("l1", "l1")],
    typeIds := [(("person", "1"), "l1")],
    modelMap := [(("person", "l1"), 0)],
    ims := [(0, { modelName := "person", lid := "l1", _id := some "1", state := .loaded,
                  hasRecord := false, scheduledDestroy := true, isDestroyed := false,
                  lastData := none })],
    nextIm := 1,
    schemaTypes := ["person"] }

/-- No fetch-coordinator state was touched between two store states: the pending
table, the transport-call count, and the promise counter are unchanged. -/
def FetchPreserved (st st' : Store) : Prop :=
  st'.pendingFetches = st.pendingFetches ∧
  st'.transportCalls = st.transportCalls ∧
  st'.nextPromise = st.nextPromise

/-- A store with one identifier of type `person` (lid `l1`, id `1`) whose internal
model is in the loading state with a pending fetch (promise `7`) recorded. -/
def loadingStore : Store :=
  { baseStore with
    idValues := [("l1", ⟨"person", some "1", "l1"⟩)],
    lids := [("l1", "l1")],
    typeIds := [(("person", "1"), "l1")],
    modelMap := [(("person", "l1"), 0)],
    ims := [(0, { modelName := "person", lid := "l1", _id := some "1", state := .loading,
                  hasRecord := false, scheduledDestroy := false, isDestroyed := false,
                  lastData := none })],
    nextIm := 1,
    schemaTypes := ["person"],
    pendingFetches := [("l1", 7)],
    nextPromise := 8 }

/-- A store with a loaded `comment:5` (lid `lc`) whose `post` belongs-to edge
points at a loaded `post:9` (lid `lp`), and the inverse `comments` has-many edge. -/
def relStore : Store :=
  { baseStore with
    idValues := [("lc", ⟨"comment", some "5", "lc"⟩), ("lp", ⟨"post", some "9", "lp"⟩)],
    lids := [("lc", "lc"), ("lp", "lp")],
    typeIds := [(("comment", "5"), "lc"), (("post", "9"), "lp")],
    modelMap := [(("comment", "lc"), 0), (("post", "lp"), 1)],
    ims := [(0, { modelName := "comment", lid := "lc", _id := some "5", state := .loaded,
                  hasRecord := false, scheduledDestroy := false, isDestroyed := false,
                  lastData := none }),
            (1, { modelName := "post", lid := "lp", _id := some "9", state := .loaded,
                  hasRecord := false, scheduledDestroy := false, isDestroyed := false,
                  lastData := none })],
    nextIm := 2,
    schemaTypes := ["comment", "post"],
    schemaRels := [(("comment", "post"), RelKind.belongsTo),
                   (("post", "comments"), RelKind.hasMany)],
    graph := [(("lc", "post"), RelEdge.one (some (some ⟨"post", some "9", none⟩))),
              (("lp", "comments"), RelEdge.many (some [⟨"comment", some "5", none⟩]))] }

/-- A fresh snapshot of `comment:5` in `relStore`. -/
def relSnapshot : Snapshot :=
  { identifierLid := "lc", modelName := "comment", id := some "5",
    _belongsToRelationships := [], _belongsToIds := [], _hasManyRelationships := [],
    _hasManyIds := [], __attributes := none, _changedAttributes := none }

/-- A fresh snapshot of `post:9` in `relStore`. -/
def relSnapshotPost : Snapshot :=
  { identifierLid := "lp", modelName := "post", id := some "9",
    _belongsToRelationships := [], _belongsToIds := [], _hasManyRelationships := [],
    _hasManyIds := [], __attributes := none, _changedAttributes := none }

/-- The internal model a relationship member resolves to without creating
anything: peek the identifier, then peek the identity map. -/
def Store.memberModel (st : Store) (member : ResourceIdObj) : Option Nat :=
  match st.peekRecordIdentifier member with
  | some l => st.factoryPeek l
  | none => none

/-- Whether a relationship member's resolved internal model is deleted. -/
def Store.memberDeleted (st : Store) (member : ResourceIdObj) : Bool :=
  match st.memberModel member with
  | some k => (st.getIM k).isDeleted
  | none => false

/-- `relStore` with both internal models in the deleted state, while the
relationship edges still carry the raw linkage data. -/
def deletedRelStore : Store :=
  { relStore with
    ims := [(0, { modelName := "comment", lid := "lc", _id := some "5", state := .deleted,
                  hasRecord := false, scheduledDestroy := false, isDestroyed := false,
                  lastData := none }),
            (1, { modelName := "post", lid := "lp", _id := some "9", state := .deleted,
                  hasRecord := false, scheduledDestroy := false, isDestroyed := false,
                  lastData := none })] }

/-- A store whose heap holds a materialized attribute dictionary at address 0 and
a changed-attribute `[old, new]` array at address 1. -/
def attrStore : Store :=
  { baseStore with
    heap := [(0, JObj.dict [("title", JVal.prim "a")]),
             (1, JObj.arr [JVal.prim "old", JVal.prim "new"])],
    nextAddr := 2 }

/-- A snapshot over `attrStore` whose `__attributes` dictionary is materialized at
heap address 0 and whose changed-attributes map records the `title` change array
at heap address 1. -/
def attrSnapshot : Snapshot :=
  { identifierLid := "l1", modelName := "person", id := some "1",
    _belongsToRelationships := [], _belongsToIds := [], _hasManyRelationships := [],
    _hasManyIds := [], __attributes := some 0,
    _changedAttributes := some [("title", 1)] }

/-- The pushed resource for the merge scenario: the server answers the save of the
client-created record `lc` with the canonical id `2`, which another registered
identifier (`ls`) already bears. -/
def mergeData : ExistingResourceObject :=
  { type := "person", id := some "2", lid := some "lc", attributes := [] }

/-- A store in which lid `lc` holds a client-created, id-less internal model with
a materialized record while lid `ls` is a registered identifier for `person:2`
with a pushed (record-less) internal model of its own: pushing `mergeData`
triggers the identifier merge inside `_load`, whose callback re-points the
identity map at the client record. -/
def mergeStore : Store :=
  { baseStore with
    idValues := [("lc", ⟨"person", none, "lc"⟩), ("ls", ⟨"person", some "2", "ls"⟩)],
    lids := [("lc", "lc"), ("ls", "ls")],
    typeIds := [(("person", "2"), "ls")],
    modelMap := [(("person", "lc"), 0), (("person", "ls"), 1)],
    ims := [(0, ⟨"person", "lc", none, RecordState.created, true, false, false, none⟩),
            (1, ⟨"person", "ls", some "2", RecordState.loaded, false, false, false, none⟩)],
    nextIm := 2,
    schemaTypes := ["person"] }

/-- The store fields that relationship-member resolution reads (`memberModel`,
`memberDeleted`, `idValue`) are unchanged, and every internal model keeps its
deletion flag and identifier back-reference. -/
def SnapPreserved (st st2 : Store) : Prop :=
  st2.lids = st.lids ∧ st2.typeIds = st.typeIds ∧ st2.idValues = st.idValues ∧
  st2.modelMap = st.modelMap ∧
  (∀ j, (st2.getIM j).isDeleted = (st.getIM j).isDeleted) ∧
  (∀ j, (st2.getIM j).lid = (st.getIM j).lid)

/-! ## Table lemmas -/

namespace Tbl

variable {α : Type} {β : Type} [DecidableEq α]

theorem get_del_self (l : List (α × β)) (a : α) : get (del l a) a = none := by
  induction l with
  | nil => rfl
  | cons hd tl ih =>
    obtain ⟨k, v⟩ := hd
    by_cases h : k = a <;> simp [del, get, h, ih]

theorem get_del_ne (l : List (α × β)) (a a' : α) (h : a ≠ a') :
    get (del l a) a' = get l a' := by
  induction l with
  | nil => rfl
  | cons hd tl ih =>
    obtain ⟨k, v⟩ := hd
    by_cases hk : k = a
    · subst hk
      simp [del, get, h, ih]
    · by_cases hk' : k = a' <;> simp [del, get, hk, hk', ih, Ne.symm h]

@[simp] theorem get_set_self (l : List (α × β)) (a : α) (b : β) :
    get (set l a b) a = some b := by
  simp [set, get]

theorem get_set_ne (l : List (α × β)) (a a' : α) (b : β) (h : a ≠ a') :
    get (set l a b) a' = get l a' := by
  simp [set, get, h, get_del_ne l a a' h]

end Tbl

/-! ## C4 — the intended/alternate choice of the merge protocol -/

/-- C4: the merge protocol's choice of the intended identifier.  When the two
identifiers' `id` fields differ and one of them carries the authoritative data's
`id`, that one is intended and the other is the alternate; when the ids agree but
the `type` fields differ, the one whose `type` equals the data's `type` is
intended and the other is the alternate. -/
theorem mergeChooseIntended_prefers_matching_fields
    (identifier matchedIdentifier : IdentifierVal) (rd : MergeResourceData) :
    (identifier.id ≠ matchedIdentifier.id → ∀ v, rd.id? = some v →
      ((identifier.id = v →
          mergeChooseIntended identifier matchedIdentifier rd = identifier ∧
          (if identifier = mergeChooseIntended identifier matchedIdentifier rd then
            matchedIdentifier else identifier) = matchedIdentifier) ∧
       (matchedIdentifier.id = v →
          mergeChooseIntended identifier matchedIdentifier rd = matchedIdentifier ∧
          (if identifier = mergeChooseIntended identifier matchedIdentifier rd then
            matchedIdentifier else identifier) = identifier))) ∧
    (identifier.id = matchedIdentifier.id → identifier.type ≠ matchedIdentifier.type →
      ∀ t, rd.type? = some t →
      ((identifier.type = t →
          mergeChooseIntended identifier matchedIdentifier rd = identifier ∧
          (if identifier = mergeChooseIntended identifier matchedIdentifier rd then
            matchedIdentifier else identifier) = matchedIdentifier) ∧
       (matchedIdentifier.type = t →
          mergeChooseIntended identifier matchedIdentifier rd = matchedIdentifier ∧
          (if identifier = mergeChooseIntended identifier matchedIdentifier rd then
            matchedIdentifier else identifier) = identifier))) := by
  obtain ⟨rid, rty⟩ := rd
  constructor
  · intro hne v hv
    have hv' : rid = some v := hv
    subst hv'
    constructor
    · intro hid
      have h1 : mergeChooseIntended identifier matchedIdentifier ⟨some v, rty⟩ = identifier := by
        simp only [mergeChooseIntended]
        rw [if_pos hne]
        exact if_pos hid
      exact ⟨h1, by simp [h1]⟩
    · intro hid
      have hne' : ¬ identifier.id = v := fun h => hne (h.trans hid.symm)
      have h1 : mergeChooseIntended identifier matchedIdentifier ⟨some v, rty⟩
          = matchedIdentifier := by
        simp only [mergeChooseIntended]
        rw [if_pos hne]
        exact if_neg hne'
      have hvalne : identifier ≠ matchedIdentifier := fun h => hne (congrArg IdentifierVal.id h)
      exact ⟨h1, by simp [h1, hvalne]⟩
  · intro hid htyne t ht
    have ht' : rty = some t := ht
    subst ht'
    constructor
    · intro hty
      have h1 : mergeChooseIntended identifier matchedIdentifier ⟨rid, some t⟩ = identifier := by
        simp only [mergeChooseIntended]
        rw [if_neg (not_not_intro hid), if_pos htyne]
        exact if_pos hty
      exact ⟨h1, by simp [h1]⟩
    · intro hty
      have htyne' : ¬ identifier.type = t := fun h => htyne (h.trans hty.symm)
      have h1 : mergeChooseIntended identifier matchedIdentifier ⟨rid, some t⟩
          = matchedIdentifier := by
        simp only [mergeChooseIntended]
        rw [if_neg (not_not_intro hid), if_pos htyne]
        exact if_neg htyne'
      have hvalne : identifier ≠ matchedIdentifier := fun h => htyne (congrArg IdentifierVal.type h)
      exact ⟨h1, by simp [h1, hvalne]⟩

/-- Witness for C4 at concrete identifiers: the id-branch chooses the identifier
matching the data's id, and the type-branch chooses the one matching the data's type. -/
theorem mergeChooseIntended_prefers_matching_fields_witness :
    mergeChooseIntended ⟨"person", some "1", "l1"⟩ ⟨"person", some "2", "l2"⟩
        ⟨some (some "2"), some "person"⟩ = ⟨"person", some "2", "l2"⟩ ∧
    mergeChooseIntended ⟨"dog", some "1", "l1"⟩ ⟨"animal", some "1", "l2"⟩
        ⟨some (some "1"), some "dog"⟩ = ⟨"dog", some "1", "l1"⟩ := by
  refine ⟨?_, ?_⟩
  · have h := (mergeChooseIntended_prefers_matching_fields
      ⟨"person", some "1", "l1"⟩ ⟨"person", some "2", "l2"⟩
      ⟨some (some "2"), some "person"⟩).1 (by decide) (some "2") rfl
    exact (h.2 rfl).1
  · have h := (mergeChooseIntended_prefers_matching_fields
      ⟨"dog", some "1", "l1"⟩ ⟨"animal", some "1", "l2"⟩
      ⟨some (some "1"), some "dog"⟩).2 rfl (by decide) "dog" rfl
    exact (h.1 rfl).1

/-! ## Small store lemmas -/

theorem Store.getIM_setIM_self (st : Store) (k : Nat) (f : InternalModel → InternalModel) :
    (st.setIM k f).getIM k = f (st.getIM k) := by
  simp [Store.setIM, Store.getIM, Tbl.get_set_self]

theorem Store.getIM_setIM_ne (st : Store) (k j : Nat) (f : InternalModel → InternalModel)
    (h : k ≠ j) : (st.setIM k f).getIM j = st.getIM j := by
  simp [Store.setIM, Store.getIM, Tbl.get_set_ne _ _ _ _ h]

theorem mergeChooseIntended_cases (i m : IdentifierVal) (rd : MergeResourceData) :
    mergeChooseIntended i m rd = i ∨ mergeChooseIntended i m rd = m := by
  unfold mergeChooseIntended
  by_cases h1 : i.id ≠ m.id
  · rw [if_pos h1]
    cases hrd : rd.id? with
    | some dataId =>
      by_cases h2 : i.id = dataId
      · exact Or.inl (if_pos h2)
      · exact Or.inr (if_neg h2)
    | none => exact Or.inr rfl
  · rw [if_neg h1]
    by_cases h3 : i.type ≠ m.type
    · rw [if_pos h3]
      cases hrd : rd.type? with
      | some dataType =>
        by_cases h4 : i.type = dataType
        · exact Or.inl (if_pos h4)
        · exact Or.inr (if_neg h4)
      | none => exact Or.inr rfl
    · rw [if_neg h3]
      exact Or.inl rfl

/-! ## C2 — the merge protocol rejects two live records with a conflict error -/

/-- C2: when the merge callback finds internal models for both identifiers and
both have materialized records, the merge is rejected with a conflict error that
names both identifiers, and the store is returned unchanged — neither entry is
discarded. -/
theorem configureMergeHook_rejects_two_live_records
    (st : Store) (identifierLid matchedLid : String) (rd : MergeResourceData)
    (k1 k2 : Nat)
    (h1 : st.modelMapGet (st.idValue identifierLid).type (st.idValue identifierLid).lid = some k1)
    (h2 : st.modelMapGet (st.idValue identifierLid).type (st.idValue matchedLid).lid = some k2)
    (hr1 : (st.getIM k1).hasRecord = true)
    (hr2 : (st.getIM k2).hasRecord = true) :
    st.configureMergeHook identifierLid matchedLid rd =
      (.error (.mergeConflict (st.idValue identifierLid) (st.idValue matchedLid)), st) := by
  rcases mergeChooseIntended_cases (st.idValue identifierLid) (st.idValue matchedLid) rd
    with hc | hc
  · simp [Store.configureMergeHook, hc, Store.mergeHasConflict, h1, h2, hr1, hr2]
  · by_cases he : st.idValue identifierLid = st.idValue matchedLid
    · rw [← he] at hc
      simp [Store.configureMergeHook, hc, ← he, Store.mergeHasConflict, h1, hr1]
    · simp [Store.configureMergeHook, hc, he, Store.mergeHasConflict, h1, h2, hr1, hr2]

/-- Witness for C2: in `twoLiveStore`, updating `l1`'s id to collide with `l2`
hits the conflict; the hook rejects with an error naming both identifiers and
leaves the store untouched. -/
theorem configureMergeHook_rejects_two_live_records_witness :
    twoLiveStore.modelMapGet (twoLiveStore.idValue "l1").type
        (twoLiveStore.idValue "l1").lid = some 0 ∧
    twoLiveStore.modelMapGet (twoLiveStore.idValue "l1").type
        (twoLiveStore.idValue "l2").lid = some 1 ∧
    (twoLiveStore.getIM 0).hasRecord = true ∧
    (twoLiveStore.getIM 1).hasRecord = true ∧
    twoLiveStore.configureMergeHook "l1" "l2" ⟨some (some "2"), some "person"⟩ =
      (.error (.mergeConflict (twoLiveStore.idValue "l1") (twoLiveStore.idValue "l2")),
        twoLiveStore) := by
  refine ⟨rfl, rfl, rfl, rfl, ?_⟩
  exact configureMergeHook_rejects_two_live_records twoLiveStore "l1" "l2"
    ⟨some (some "2"), some "person"⟩ 0 1 rfl rfl rfl rfl

/-! ## C5 — lookup cancels a scheduled destroy and returns the same instance -/

/-- C5: when the internal model for an identifier has a scheduled (not yet
executed) destroy, `InternalModelFactory.lookup` cancels the scheduled destroy and
returns the very same internal-model instance (the same key): the resulting store
holds the identical model with only `scheduledDestroy` cleared, and no new
internal model is constructed (`nextIm` unchanged). -/
theorem factoryLookup_cancels_scheduled_destroy
    (st : Store) (l : String) (k : Nat)
    (hlid : Tbl.get st.lids l = some l)
    (hvlid : (st.idValue l).lid = l)
    (hpeek : st.factoryPeek l = some k)
    (hsched : (st.getIM k).scheduledDestroy = true) :
    st.factoryLookup (resourceOfIdentifier (st.idValue l)) none =
      (st.setIM k (fun im => { im with scheduledDestroy := false }), k) ∧
    (st.setIM k (fun im => { im with scheduledDestroy := false })).getIM k =
      { st.getIM k with scheduledDestroy := false } ∧
    (st.setIM k (fun im => { im with scheduledDestroy := false })).nextIm = st.nextIm := by
  refine ⟨?_, Store.getIM_setIM_self st k _, rfl⟩
  simp [Store.factoryLookup, resourceOfIdentifier, Store.getOrCreateRecordIdentifier,
    hvlid, hlid, hpeek, hsched]

/-- Witness for C5: in `scheduledDestroyStore`, looking up `person l1` cancels the
scheduled destroy and returns internal model `0` itself. -/
theorem factoryLookup_cancels_scheduled_destroy_witness :
    Tbl.get scheduledDestroyStore.lids "l1" = some "l1" ∧
    (scheduledDestroyStore.idValue "l1").lid = "l1" ∧
    scheduledDestroyStore.factoryPeek "l1" = some 0 ∧
    (scheduledDestroyStore.getIM 0).scheduledDestroy = true ∧
    scheduledDestroyStore.factoryLookup
        (resourceOfIdentifier (scheduledDestroyStore.idValue "l1")) none =
      (scheduledDestroyStore.setIM 0 (fun im => { im with scheduledDestroy := false }), 0) := by
  refine ⟨rfl, rfl, rfl, rfl, ?_⟩
  exact (factoryLookup_cancels_scheduled_destroy scheduledDestroyStore "l1" 0
    rfl rfl rfl rfl).1

/-! ## C1 — a missing/empty id fails the push synchronously without mutation -/

theorem load_invalid_id_fails_unchanged (st : Store) (r : ExistingResourceObject)
    (hbad : validPushId r.id = false) :
    st._load r = (.error (.missingId r.type), st) := by
  simp [Store._load, hbad]

theorem loadAll_fails_of_mem (st : Store) (rs : List ExistingResourceObject)
    (r : ExistingResourceObject) (hmem : r ∈ rs) (hbad : validPushId r.id = false) :
    ∃ e st', st._loadAll rs = (.error e, st') := by
  induction rs generalizing st with
  | nil => cases hmem
  | cons hd tl ih =>
    rcases List.mem_cons.mp hmem with heq | hmem'
    · subst heq
      exact ⟨.missingId r.type, st,
        by simp [Store._loadAll, load_invalid_id_fails_unchanged st r hbad]⟩
    · rcases hload : st._load hd with ⟨res, st1⟩
      cases res with
      | error e => exact ⟨e, st1, by simp [Store._loadAll, hload]⟩
      | ok l =>
        obtain ⟨e, st', h⟩ := ih st1 hmem'
        exact ⟨e, st', by simp [Store._loadAll, hload, h]⟩

/-- C1: for every document passed to `push`/`_push` and every resource object in
its `data` or `included` members whose `id` is null, undefined or the empty
string, the call fails synchronously (the push returns a validation error), and
the `_load` invocation for that resource raises the validation error naming the
offending type while leaving the store state exactly as it received it. -/
theorem push_missing_id_fails_fast (st : Store) (doc : JsonApiDocument)
    (r : ExistingResourceObject) (hmem : r ∈ doc.allResources)
    (hbad : validPushId r.id = false) :
    (∃ e st', st._push doc = (.error e, st')) ∧
    (∀ st2 : Store, st2._load r = (.error (.missingId r.type), st2)) := by
  refine ⟨?_, fun st2 => load_invalid_id_fails_unchanged st2 r hbad⟩
  obtain ⟨dataA, includedA⟩ := doc
  cases includedA with
  | none =>
    simp [JsonApiDocument.allResources] at hmem
    cases dataA with
    | one r0 =>
      have heq : r = r0 := by simpa using hmem
      subst heq
      exact ⟨.missingId r.type, st,
        by simp [Store._push, load_invalid_id_fails_unchanged st r hbad]⟩
    | many rs =>
      have hmem' : r ∈ rs := by simpa using hmem
      obtain ⟨e, st', h⟩ := loadAll_fails_of_mem st rs r hmem' hbad
      exact ⟨e, st', by simp [Store._push, h]⟩
    | nullData => simp at hmem
  | some included =>
    simp [JsonApiDocument.allResources] at hmem
    by_cases hin : r ∈ included
    · obtain ⟨e, st', h⟩ := loadAll_fails_of_mem st included r hin hbad
      exact ⟨e, st', by simp [Store._push, h]⟩
    · have hmem' : r ∈ (match dataA with
        | PushDocData.one r0 => [r0]
        | PushDocData.many rs => rs
        | PushDocData.nullData => []) := by
        rcases hmem with h | h
        · exact absurd h hin
        · exact h
      rcases h0 : st._loadAll included with ⟨res0, st1⟩
      cases res0 with
      | error e => exact ⟨e, st1, by simp [Store._push, h0]⟩
      | ok ls =>
        cases dataA with
        | one r0 =>
          have heq : r = r0 := by simpa using hmem'
          subst heq
          exact ⟨.missingId r.type, st1,
            by simp [Store._push, h0, load_invalid_id_fails_unchanged st1 r hbad]⟩
        | many rs =>
          have hmem2 : r ∈ rs := by simpa using hmem'
          obtain ⟨e, st', h⟩ := loadAll_fails_of_mem st1 rs r hmem2 hbad
          exact ⟨e, st', by simp [Store._push, h0, h]⟩
        | nullData => simp at hmem'

/-- Witness for C1: pushing a `person` resource with no id fails, and its `_load`
returns the missing-id error with the store unchanged. -/
theorem push_missing_id_fails_fast_witness :
    (⟨"person", none, none, []⟩ : ExistingResourceObject) ∈
      (⟨.one ⟨"person", none, none, []⟩, none⟩ : JsonApiDocument).allResources ∧
    validPushId (⟨"person", none, none, []⟩ : ExistingResourceObject).id = false ∧
    ((∃ e st', baseStore._push ⟨.one ⟨"person", none, none, []⟩, none⟩ = (.error e, st')) ∧
     (∀ st2 : Store, st2._load ⟨"person", none, none, []⟩ =
        (.error (.missingId "person"), st2))) := by
  refine ⟨by simp [JsonApiDocument.allResources], rfl, ?_⟩
  exact push_missing_id_fails_fast baseStore ⟨.one ⟨"person", none, none, []⟩, none⟩
    ⟨"person", none, none, []⟩ (by simp [JsonApiDocument.allResources]) rfl

/-! ## C7 — peekById runs destroySync and the create path builds a fresh entry -/

theorem Store.destroySync_eq (st : Store) (k : Nat) :
    st.destroySync k = { st with
      modelMap := Tbl.del st.modelMap ((st.getIM k).modelName, (st.getIM k).lid),
      lids := Tbl.del st.lids (st.getIM k).lid,
      typeIds := (match (st.idValue (st.getIM k).lid).id with
        | some i => Tbl.del st.typeIds ((st.idValue (st.getIM k).lid).type, i)
        | none => st.typeIds),
      ims := Tbl.set st.ims k
        { st.getIM k with isDestroyed := true, scheduledDestroy := false } } := by
  simp [Store.destroySync, Store.factoryRemove, Store.forgetRecordIdentifier,
    Store.setIM, Store.getIM, Store.idValue]

/-- C7: when `peekById` finds an internal model with a scheduled destroy, it
executes `destroySync` on that entry (marking it destroyed and dropping it from
the identity map) and returns null; the create path (`_build` with `isCreate`)
then constructs a brand-new entry — a fresh key, an empty undestroyed model —
instead of reusing the torn-down one. -/
theorem peekById_destroySync_then_build_fresh
    (st : Store) (type id : String) (l : String) (k : Nat)
    (res : Except StoreError Nat) (stF : Store)
    (hidne : id ≠ "")
    (htid : Tbl.get st.typeIds (type, id) = some l)
    (hmap : st.modelMapGet type l = some k)
    (hsched : (st.getIM k).scheduledDestroy = true)
    (himlid : (st.getIM k).lid = l)
    (himtype : (st.getIM k).modelName = type)
    (hvtype : (st.idValue l).type = type)
    (hvid : (st.idValue l).id = some id)
    (hk : k < st.nextIm)
    (hbc : st.buildCreate type (some id) = (res, stF)) :
    st.peekById type id = (st.destroySync k, none) ∧
    ((st.destroySync k).getIM k).isDestroyed = true ∧
    (st.destroySync k).modelMapGet type l = none ∧
    res = .ok st.nextIm ∧
    st.nextIm ≠ k ∧
    (stF.getIM st.nextIm).isDestroyed = false ∧
    (stF.getIM st.nextIm).state = RecordState.empty ∧
    (stF.getIM st.nextIm).modelName = type ∧
    (stF.getIM st.nextIm)._id = some id ∧
    (stF.getIM k).isDestroyed = true := by
  have hD := Store.destroySync_eq st k
  have hpeek : st.peekById type id = (st.destroySync k, none) := by
    simp [Store.peekById, Store.peekRecordIdentifier, Store.peekByTypeId, htid, hmap, hsched]
  have htidD : Tbl.get (st.destroySync k).typeIds (type, id) = none := by
    rw [hD]
    simp [himlid, hvid, hvtype, Tbl.get_del_self]
  rw [Store.buildCreate] at hbc
  simp only [hidne, if_neg, ite_false, if_false, hpeek, Option.isSome_none,
    Bool.false_eq_true, Store.createIdentifierForNewRecord, htidD,
    Store.registerNewIdentifier] at hbc
  rw [Prod.mk.injEq] at hbc
  obtain ⟨hres, hstF⟩ := hbc
  have hne : st.nextIm ≠ k := Nat.ne_of_gt hk
  have hnim : (st.destroySync k).nextIm = st.nextIm := by rw [hD]
  rw [hnim] at hres hstF
  refine ⟨hpeek, ?_, ?_, hres.symm, hne, ?_, ?_, ?_, ?_, ?_⟩
  · rw [hD]
    simp [Store.getIM, Tbl.get_set_self]
  · rw [hD]
    simp [Store.modelMapGet, himtype, himlid, Tbl.get_del_self]
  · rw [← hstF]
    simp [Store.getIM, Tbl.get_set_self]
  · rw [← hstF]
    simp [Store.getIM, Tbl.get_set_self]
  · rw [← hstF]
    simp [Store.getIM, Tbl.get_set_self]
  · rw [← hstF]
    simp [Store.getIM, Tbl.get_set_self]
  · rw [← hstF]
    simp only [Store.getIM]
    rw [Tbl.get_set_ne _ _ _ _ hne]
    rw [hD]
    simp [Store.getIM, Tbl.get_set_self]

/-- Witness for C7 in `scheduledDestroyStore`: peeking `person:1` tears the
scheduled-destroy entry down synchronously and returns null, and the create path
builds the brand-new internal model `1` (not the torn-down `0`). -/
theorem peekById_destroySync_then_build_fresh_witness :
    ("1" : String) ≠ "" ∧
    Tbl.get scheduledDestroyStore.typeIds ("person", "1") = some "l1" ∧
    scheduledDestroyStore.modelMapGet "person" "l1" = some 0 ∧
    (scheduledDestroyStore.getIM 0).scheduledDestroy = true ∧
    (0 : Nat) < scheduledDestroyStore.nextIm ∧
    (scheduledDestroyStore.peekById "person" "1" =
        (scheduledDestroyStore.destroySync 0, none) ∧
      (scheduledDestroyStore.buildCreate "person" (some "1")).1 =
        .ok scheduledDestroyStore.nextIm ∧
      ((scheduledDestroyStore.buildCreate "person" (some "1")).2.getIM
          scheduledDestroyStore.nextIm).isDestroyed = false ∧
      ((scheduledDestroyStore.buildCreate "person" (some "1")).2.getIM 0).isDestroyed = true) := by
  refine ⟨by decide, rfl, rfl, rfl, by decide, ?_, ?_, ?_, ?_⟩
  · exact (peekById_destroySync_then_build_fresh scheduledDestroyStore "person" "1" "l1" 0
      (scheduledDestroyStore.buildCreate "person" (some "1")).1
      (scheduledDestroyStore.buildCreate "person" (some "1")).2
      (by decide) rfl rfl rfl rfl rfl rfl rfl (by decide) rfl).1
  · exact (peekById_destroySync_then_build_fresh scheduledDestroyStore "person" "1" "l1" 0
      (scheduledDestroyStore.buildCreate "person" (some "1")).1
      (scheduledDestroyStore.buildCreate "person" (some "1")).2
      (by decide) rfl rfl rfl rfl rfl rfl rfl (by decide) rfl).2.2.2.1
  · exact (peekById_destroySync_then_build_fresh scheduledDestroyStore "person" "1" "l1" 0
      (scheduledDestroyStore.buildCreate "person" (some "1")).1
      (scheduledDestroyStore.buildCreate "person" (some "1")).2
      (by decide) rfl rfl rfl rfl rfl rfl rfl (by decide) rfl).2.2.2.2.2.1
  · exact (peekById_destroySync_then_build_fresh scheduledDestroyStore "person" "1" "l1" 0
      (scheduledDestroyStore.buildCreate "person" (some "1")).1
      (scheduledDestroyStore.buildCreate "person" (some "1")).2
      (by decide) rfl rfl rfl rfl rfl rfl rfl (by decide) rfl).2.2.2.2.2.2.2.2.2

/-! ## C6 — pending fetches are reused, no duplicate transport request -/

theorem FetchPreserved.refl (st : Store) : FetchPreserved st st := ⟨rfl, rfl, rfl⟩

theorem FetchPreserved.trans {s1 s2 s3 : Store}
    (h1 : FetchPreserved s1 s2) (h2 : FetchPreserved s2 s3) : FetchPreserved s1 s3 :=
  ⟨h2.1.trans h1.1, h2.2.1.trans h1.2.1, h2.2.2.trans h1.2.2⟩

theorem Store.registerNewIdentifier_fp (st : Store) (r : ResourceIdObj) :
    FetchPreserved st (st.registerNewIdentifier r).1 := by
  cases hl : r.lid <;> simp [Store.registerNewIdentifier, hl, FetchPreserved]

theorem Store.getOrCreateByTypeId_fp (st : Store) (r : ResourceIdObj) :
    FetchPreserved st (st.getOrCreateByTypeId r).1 := by
  unfold Store.getOrCreateByTypeId
  cases hpt : st.peekByTypeId r.type r.id with
  | some l => exact FetchPreserved.refl st
  | none => exact st.registerNewIdentifier_fp r

theorem Store.getOrCreate_fp (st : Store) (r : ResourceIdObj) :
    FetchPreserved st (st.getOrCreateRecordIdentifier r).1 := by
  unfold Store.getOrCreateRecordIdentifier
  cases hl : r.lid with
  | none => exact st.getOrCreateByTypeId_fp r
  | some l =>
    show FetchPreserved st ((match Tbl.get st.lids l with
      | some canonical => (st, canonical)
      | none => st.getOrCreateByTypeId r) : Store × String).1
    cases hby : Tbl.get st.lids l with
    | some canonical => exact FetchPreserved.refl st
    | none => exact st.getOrCreateByTypeId_fp r

theorem Store.setIM_fp (st : Store) (k : Nat) (f : InternalModel → InternalModel) :
    FetchPreserved st (st.setIM k f) := by
  simp [Store.setIM, FetchPreserved]

theorem Store.buildExisting_fp (st : Store) (l : String) :
    FetchPreserved st (st.buildExisting l).1 := by
  simp [Store.buildExisting, FetchPreserved]

theorem Store.factoryLookup_fp (st : Store) (r : ResourceIdObj)
    (d : Option ExistingResourceObject) :
    FetchPreserved st (st.factoryLookup r d).1 := by
  unfold Store.factoryLookup
  cases d with
  | none =>
    rcases hg : st.getOrCreateRecordIdentifier r with ⟨st1, lid⟩
    have h1 : FetchPreserved st st1 := by
      have := st.getOrCreate_fp r
      rwa [hg] at this
    cases hp : st1.factoryPeek lid with
    | some k =>
      by_cases hs : (st1.getIM k).scheduledDestroy = true
      · simp only [hg, hp, hs]
        exact h1.trans (st1.setIM_fp k _)
      · simp only [hg, hp, Bool.not_eq_true] at hs ⊢
        simp only [hs]
        exact h1
    | none =>
      simp only [hg, hp]
      exact h1.trans (st1.buildExisting_fp lid)
  | some dd =>
    rcases hg0 : st.getOrCreateRecordIdentifier (resourceOfData dd) with ⟨st0, l0⟩
    have h0 : FetchPreserved st st0 := by
      have := st.getOrCreate_fp (resourceOfData dd)
      rwa [hg0] at this
    rcases hg : st0.getOrCreateRecordIdentifier r with ⟨st1, lid⟩
    have h1 : FetchPreserved st st1 := by
      have := st0.getOrCreate_fp r
      rw [hg] at this
      exact h0.trans this
    cases hp : st1.factoryPeek lid with
    | some k =>
      by_cases hs : (st1.getIM k).scheduledDestroy = true
      · simp only [hg0, hg, hp, hs]
        exact h1.trans (st1.setIM_fp k _)
      · simp only [hg0, hg, hp, Bool.not_eq_true] at hs ⊢
        simp only [hs]
        exact h1
    | none =>
      simp only [hg0, hg, hp]
      exact h1.trans (st1.buildExisting_fp lid)

theorem Store.internalModelForResource_fp (st : Store) (r : ResourceIdObj) :
    FetchPreserved st (st._internalModelForResource r).1 :=
  st.factoryLookup_fp (constructResource r) none

theorem Store.internalModelForRelatedResource_fp (st : Store) (r : ResourceIdObj) :
    FetchPreserved st (st.internalModelForRelatedResource r).1 := by
  unfold Store.internalModelForRelatedResource
  rcases hg : st.getOrCreateRecordIdentifier r with ⟨st1, lid⟩
  have h1 : FetchPreserved st st1 := by
    have := st.getOrCreate_fp r
    rwa [hg] at this
  exact h1.trans (st1.internalModelForResource_fp _)

theorem Store.areAllInverseRecordsLoaded_fp (st : Store)
    (data : Option (Option ResourceIdObj)) :
    FetchPreserved st (st.areAllInverseRecordsLoaded data).1 := by
  unfold Store.areAllInverseRecordsLoaded
  match data with
  | some (some r) =>
    rcases hg : st.internalModelForRelatedResource r with ⟨st1, k⟩
    have h1 : FetchPreserved st st1 := by
      have := st.internalModelForRelatedResource_fp r
      rwa [hg] at this
    simp only [hg]
    exact h1
  | some none => exact FetchPreserved.refl st
  | none => exact FetchPreserved.refl st

theorem InternalModel.isLoading_not_isEmpty (im : InternalModel)
    (h : im.isLoading = true) : im.isEmpty = false := by
  cases hs : im.state <;> simp [InternalModel.isLoading, InternalModel.isEmpty, hs] at h ⊢

/-- C6: (a) when resolving a belongsTo relationship whose related identifier
already has a fetch in flight, `_findBelongsToByJsonApiResource` returns exactly
the pending promise obtained via `getPendingFetch` and dispatches no transport
request (transport-call count and pending table unchanged); (b) likewise
`_fetchDataIfNeededForIdentifier` returns the pending fetch, scheduling nothing
new, when the entry is in the loading state. -/
theorem pending_fetch_is_reused :
    (∀ (st : Store) (resource : BelongsToResource) (options : FindOptions)
        (linkage : ResourceIdObj) (st1 st2 : Store) (k : Nat) (b : Bool) (p : Nat),
      resource.data = some (some linkage) →
      st._internalModelForResource linkage = (st1, k) →
      st1.areAllInverseRecordsLoaded resource.data = (st2, b) →
      st2.getPendingFetch ((st2.getIM k).lid) = some p →
      st._findBelongsToByJsonApiResource (some resource) options =
          (.ok (.pendingFound p), st2) ∧
        st2.transportCalls = st.transportCalls ∧
        st2.pendingFetches = st.pendingFetches) ∧
    (∀ (st : Store) (identifierLid : String) (options : FindOptions)
        (st1 : Store) (k p : Nat),
      st.getInternalModel identifierLid = (st1, k) →
      (st1.getIM k).isLoading = true →
      st1.getPendingFetch identifierLid = some p →
      ∃ st2, st._fetchDataIfNeededForIdentifier identifierLid options =
          (.ok (.pendingUsed p), st2) ∧
        st2.transportCalls = st.transportCalls ∧
        st2.pendingFetches = st.pendingFetches) := by
  constructor
  · intro st resource options linkage st1 st2 k b p hdata h1 h2 hp
    have hfp1 : FetchPreserved st st1 := by
      have := st.internalModelForResource_fp linkage
      rwa [h1] at this
    have hfp2 : FetchPreserved st1 st2 := by
      have := st1.areAllInverseRecordsLoaded_fp resource.data
      rwa [h2] at this
    have hfp := hfp1.trans hfp2
    refine ⟨?_, hfp.2.1, hfp.1⟩
    unfold Store._findBelongsToByJsonApiResource
    rw [hdata] at h2
    simp only [hdata, h1, h2, hp]
  · intro st identifierLid options st1 k p hgi hload hp
    have hfp1 : FetchPreserved st st1 := by
      have := st.factoryLookup_fp (resourceOfIdentifier (st.idValue identifierLid)) none
      have heq : st.getInternalModel identifierLid =
          st.factoryLookup (resourceOfIdentifier (st.idValue identifierLid)) none := rfl
      rw [← heq, hgi] at this
      exact this
    have hempty : (st1.getIM k).isEmpty = false := (st1.getIM k).isLoading_not_isEmpty hload
    by_cases hpre : options.preload = true
    · refine ⟨st1.preloadData k, ?_, ?_, ?_⟩
      · unfold Store._fetchDataIfNeededForIdentifier
        simp only [hgi, hempty, hload, hpre, if_true, Bool.false_eq_true, if_false]
        have hpf : (st1.preloadData k).getPendingFetch identifierLid = some p := by
          simpa [Store.preloadData, Store.getPendingFetch, Store.setIM] using hp
        simp [hpf]
      · exact ((hfp1.trans (st1.setIM_fp k _)).2.1)
      · exact ((hfp1.trans (st1.setIM_fp k _)).1)
    · simp only [Bool.not_eq_true] at hpre
      refine ⟨st1, ?_, hfp1.2.1, hfp1.1⟩
      unfold Store._fetchDataIfNeededForIdentifier
      simp only [hgi, hempty, hload, hpre, Bool.false_eq_true, if_false]
      simp [hp]

/-- Witness for C6 in `loadingStore`: both the belongsTo resolution and the
fetch-if-needed path return the pending promise `7` without a transport call. -/
theorem pending_fetch_is_reused_witness :
    (loadingStore._internalModelForResource ⟨"person", some "1", none⟩ = (loadingStore, 0) ∧
     loadingStore.areAllInverseRecordsLoaded (some (some ⟨"person", some "1", none⟩)) =
       (loadingStore, true) ∧
     loadingStore.getPendingFetch ((loadingStore.getIM 0).lid) = some 7 ∧
     loadingStore._findBelongsToByJsonApiResource
         (some ⟨some (some ⟨"person", some "1", none⟩), none,
           ⟨false, false, true, false, false⟩⟩) ⟨false⟩ =
       (.ok (.pendingFound 7), loadingStore)) ∧
    (loadingStore.getInternalModel "l1" = (loadingStore, 0) ∧
     (loadingStore.getIM 0).isLoading = true ∧
     loadingStore.getPendingFetch "l1" = some 7 ∧
     ∃ st2, loadingStore._fetchDataIfNeededForIdentifier "l1" ⟨false⟩ =
         (.ok (.pendingUsed 7), st2) ∧
       st2.transportCalls = loadingStore.transportCalls ∧
       st2.pendingFetches = loadingStore.pendingFetches) := by
  refine ⟨⟨rfl, rfl, rfl, ?_⟩, ⟨rfl, rfl, rfl, ?_⟩⟩
  · exact (pending_fetch_is_reused.1 loadingStore
      ⟨some (some ⟨"person", some "1", none⟩), none, ⟨false, false, true, false, false⟩⟩
      ⟨false⟩ ⟨"person", some "1", none⟩ loadingStore loadingStore 0 true 7
      rfl rfl rfl rfl).1
  · exact pending_fetch_is_reused.2 loadingStore "l1" ⟨false⟩ loadingStore 0 7 rfl rfl rfl

/-! ## C8 — snapshot relationship values are memoized for the snapshot's life -/

theorem belongsToCompute_id_caches (snap : Snapshot) (st : Store) (key : String)
    (r : BelongsToOut) (snap1 : Snapshot) (st1 : Store)
    (h : snap.belongsToCompute st key true = (.ok r, snap1, st1)) :
    ∃ v, r = BelongsToOut.idOut v ∧ Tbl.get snap1._belongsToIds key = some v := by
  unfold Snapshot.belongsToCompute at h
  cases hs : Tbl.get st.schemaRels (snap.modelName, key) with
  | none => rw [hs] at h; simp at h
  | some kind =>
    rw [hs] at h
    cases kind with
    | hasMany => simp at h
    | belongsTo =>
      cases hg : Tbl.get st.graph (snap.identifierLid, key) with
      | none => rw [hg] at h; simp at h
      | some edge =>
        rw [hg] at h
        cases edge with
        | many d => simp at h
        | one value =>
          cases value with
          | none =>
            simp at h
            obtain ⟨rfl, rfl, rfl⟩ := h
            refine ⟨_, rfl, ?_⟩
            simp
          | some dataV =>
            cases dataV with
            | none =>
              simp at h
              obtain ⟨rfl, rfl, rfl⟩ := h
              refine ⟨_, rfl, ?_⟩
              simp
            | some data =>
              rcases him : st._internalModelForResource data with ⟨stX, k⟩
              simp only [him] at h
              by_cases hdel : (stX.getIM k).isDeleted = true
              · simp [hdel] at h
                obtain ⟨rfl, rfl, rfl⟩ := h
                refine ⟨_, rfl, ?_⟩
                simp
              · simp only [Bool.not_eq_true] at hdel
                simp [hdel] at h
                obtain ⟨rfl, rfl, rfl⟩ := h
                refine ⟨_, rfl, ?_⟩
                simp

theorem belongsToCompute_snap_caches (snap : Snapshot) (st : Store) (key : String)
    (r : BelongsToOut) (snap1 : Snapshot) (st1 : Store)
    (h : snap.belongsToCompute st key false = (.ok r, snap1, st1)) :
    ∃ v, r = BelongsToOut.snapOut v ∧ Tbl.get snap1._belongsToRelationships key = some v := by
  unfold Snapshot.belongsToCompute at h
  cases hs : Tbl.get st.schemaRels (snap.modelName, key) with
  | none => rw [hs] at h; simp at h
  | some kind =>
    rw [hs] at h
    cases kind with
    | hasMany => simp at h
    | belongsTo =>
      cases hg : Tbl.get st.graph (snap.identifierLid, key) with
      | none => rw [hg] at h; simp at h
      | some edge =>
        rw [hg] at h
        cases edge with
        | many d => simp at h
        | one value =>
          cases value with
          | none =>
            simp at h
            obtain ⟨rfl, rfl, rfl⟩ := h
            refine ⟨_, rfl, ?_⟩
            simp
          | some dataV =>
            cases dataV with
            | none =>
              simp at h
              obtain ⟨rfl, rfl, rfl⟩ := h
              refine ⟨_, rfl, ?_⟩
              simp
            | some data =>
              rcases him : st._internalModelForResource data with ⟨stX, k⟩
              simp only [him] at h
              by_cases hdel : (stX.getIM k).isDeleted = true
              · simp [hdel] at h
                obtain ⟨rfl, rfl, rfl⟩ := h
                refine ⟨_, rfl, ?_⟩
                simp
              · simp only [Bool.not_eq_true] at hdel
                rcases hcs : stX.createSnapshot (stX.getIM k).lid with ⟨stY, hdl⟩
                simp [hdel, hcs] at h
                obtain ⟨rfl, rfl, rfl⟩ := h
                refine ⟨_, rfl, ?_⟩
                simp

theorem hasManyCompute_ids_caches (snap : Snapshot) (st : Store) (key : String)
    (r : HasManyOut) (snap1 : Snapshot) (st1 : Store)
    (h : snap.hasManyCompute st key true = (.ok r, snap1, st1)) :
    ∃ v, r = HasManyOut.idsOut v ∧ Tbl.get snap1._hasManyIds key = some v := by
  unfold Snapshot.hasManyCompute at h
  cases hs : Tbl.get st.schemaRels (snap.modelName, key) with
  | none => rw [hs] at h; simp at h
  | some kind =>
    rw [hs] at h
    cases kind with
    | belongsTo => simp at h
    | hasMany =>
      cases hg : Tbl.get st.graph (snap.identifierLid, key) with
      | none => rw [hg] at h; simp at h
      | some edge =>
        rw [hg] at h
        cases edge with
        | one d => simp at h
        | many value =>
          cases value with
          | none =>
            simp at h
            obtain ⟨rfl, rfl, rfl⟩ := h
            refine ⟨_, rfl, ?_⟩
            simp
          | some members =>
            rcases hl : st.hasManyIdsLoop members with ⟨stX, ids⟩
            simp [hl] at h
            obtain ⟨rfl, rfl, rfl⟩ := h
            refine ⟨_, rfl, ?_⟩
            simp

theorem hasManyCompute_snaps_caches (snap : Snapshot) (st : Store) (key : String)
    (r : HasManyOut) (snap1 : Snapshot) (st1 : Store)
    (h : snap.hasManyCompute st key false = (.ok r, snap1, st1)) :
    ∃ v, r = HasManyOut.snapsOut v ∧ Tbl.get snap1._hasManyRelationships key = some v := by
  unfold Snapshot.hasManyCompute at h
  cases hs : Tbl.get st.schemaRels (snap.modelName, key) with
  | none => rw [hs] at h; simp at h
  | some kind =>
    rw [hs] at h
    cases kind with
    | belongsTo => simp at h
    | hasMany =>
      cases hg : Tbl.get st.graph (snap.identifierLid, key) with
      | none => rw [hg] at h; simp at h
      | some edge =>
        rw [hg] at h
        cases edge with
        | one d => simp at h
        | many value =>
          cases value with
          | none =>
            simp at h
            obtain ⟨rfl, rfl, rfl⟩ := h
            refine ⟨_, rfl, ?_⟩
            simp
          | some members =>
            rcases hl : st.hasManySnapshotsLoop members with ⟨stX, hs2⟩
            simp [hl] at h
            obtain ⟨rfl, rfl, rfl⟩ := h
            refine ⟨_, rfl, ?_⟩
            simp

/-- C8: for every snapshot and relationship name, a repeated `belongsTo`
(respectively `hasMany`) call in the same id/ids mode returns the value memoized
on first access: the second call — against any store, even one whose relationship
graph has changed — returns the first call's result without recomputation and
without touching the snapshot or the store. -/
theorem snapshot_relationship_memoized :
    (∀ (snap : Snapshot) (st : Store) (key : String) (mode : Bool) (r : BelongsToOut)
        (snap1 : Snapshot) (st1 : Store),
      snap.belongsTo st key mode = (.ok r, snap1, st1) →
      ∀ st2 : Store, snap1.belongsTo st2 key mode = (.ok r, snap1, st2)) ∧
    (∀ (snap : Snapshot) (st : Store) (key : String) (mode : Bool) (r : HasManyOut)
        (snap1 : Snapshot) (st1 : Store),
      snap.hasMany st key mode = (.ok r, snap1, st1) →
      ∀ st2 : Store, snap1.hasMany st2 key mode = (.ok r, snap1, st2)) := by
  constructor
  · intro snap st key mode r snap1 st1 h st2
    cases mode with
    | true =>
      unfold Snapshot.belongsTo at h ⊢
      cases hc : Tbl.get snap._belongsToIds key with
      | some cached =>
        rw [hc] at h
        simp at h
        obtain ⟨rfl, rfl, rfl⟩ := h
        simp [hc]
      | none =>
        rw [hc] at h
        obtain ⟨v, hr, hcache⟩ := belongsToCompute_id_caches snap st key r snap1 st1 h
        simp [hcache, hr]
    | false =>
      unfold Snapshot.belongsTo at h ⊢
      cases hc : Tbl.get snap._belongsToRelationships key with
      | some cached =>
        rw [hc] at h
        simp at h
        obtain ⟨rfl, rfl, rfl⟩ := h
        simp [hc]
      | none =>
        rw [hc] at h
        obtain ⟨v, hr, hcache⟩ := belongsToCompute_snap_caches snap st key r snap1 st1 h
        simp [hcache, hr]
  · intro snap st key mode r snap1 st1 h st2
    cases mode with
    | true =>
      unfold Snapshot.hasMany at h ⊢
      cases hc : Tbl.get snap._hasManyIds key with
      | some cached =>
        rw [hc] at h
        simp at h
        obtain ⟨rfl, rfl, rfl⟩ := h
        simp [hc]
      | none =>
        rw [hc] at h
        obtain ⟨v, hr, hcache⟩ := hasManyCompute_ids_caches snap st key r snap1 st1 h
        simp [hcache, hr]
    | false =>
      unfold Snapshot.hasMany at h ⊢
      cases hc : Tbl.get snap._hasManyRelationships key with
      | some cached =>
        rw [hc] at h
        simp at h
        obtain ⟨rfl, rfl, rfl⟩ := h
        simp [hc]
      | none =>
        rw [hc] at h
        obtain ⟨v, hr, hcache⟩ := hasManyCompute_snaps_caches snap st key r snap1 st1 h
        simp [hcache, hr]

/-- Witness for C8: first calls compute `post`'s id (`"9"`) and `comments`' ids
(`["5"]`); repeated calls on the resulting snapshots return the memoized values
even against the empty store `baseStore` (the graph is not consulted again). -/
theorem snapshot_relationship_memoized_witness :
    relSnapshot.belongsTo relStore "post" true =
      (.ok (.idOut (some (some "9"))),
       { relSnapshot with _belongsToIds := [("post", some (some "9"))] }, relStore) ∧
    Snapshot.belongsTo
        { relSnapshot with _belongsToIds := [("post", some (some "9"))] }
        baseStore "post" true =
      (.ok (.idOut (some (some "9"))),
       { relSnapshot with _belongsToIds := [("post", some (some "9"))] }, baseStore) ∧
    relSnapshotPost.hasMany relStore "comments" true =
      (.ok (.idsOut (some [some "5"])),
       { relSnapshotPost with _hasManyIds := [("comments", some [some "5"])] }, relStore) ∧
    Snapshot.hasMany
        { relSnapshotPost with _hasManyIds := [("comments", some [some "5"])] }
        baseStore "comments" true =
      (.ok (.idsOut (some [some "5"])),
       { relSnapshotPost with _hasManyIds := [("comments", some [some "5"])] }, baseStore) := by
  refine ⟨rfl, ?_, rfl, ?_⟩
  · exact snapshot_relationship_memoized.1 relSnapshot relStore "post" true
      (.idOut (some (some "9")))
      { relSnapshot with _belongsToIds := [("post", some (some "9"))] } relStore rfl baseStore
  · exact snapshot_relationship_memoized.2 relSnapshotPost relStore "comments" true
      (.idsOut (some [some "5"]))
      { relSnapshotPost with _hasManyIds := [("comments", some [some "5"])] } relStore rfl
      baseStore

/-! ## C9 — deleted internal models are dropped from snapshot relationships -/

theorem memberModel_resolves (st : Store) (m : ResourceIdObj) (k : Nat)
    (h : st.memberModel m = some k) :
    ∃ st', st._internalModelForResource m = (st', k) ∧
      st'.lids = st.lids ∧ st'.typeIds = st.typeIds ∧ st'.idValues = st.idValues ∧
      st'.modelMap = st.modelMap ∧
      ∀ j, (st'.getIM j).isDeleted = (st.getIM j).isDeleted := by
  unfold Store.memberModel at h
  cases hp : st.peekRecordIdentifier m with
  | none => rw [hp] at h; cases h
  | some l =>
    rw [hp] at h
    have hfp : st.factoryPeek l = some k := h
    have hgc : st.getOrCreateRecordIdentifier m = (st, l) := by
      unfold Store.peekRecordIdentifier at hp
      unfold Store.getOrCreateRecordIdentifier Store.getOrCreateByTypeId
      cases hml : m.lid with
      | some l0 =>
        rw [hml] at hp
        simp only [] at hp
        cases hby : Tbl.get st.lids l0 with
        | some c =>
          rw [hby] at hp
          have hcl : c = l := by simpa using hp
          simp [hml, hby, hcl]
        | none =>
          rw [hby] at hp
          have hpt : st.peekByTypeId m.type m.id = some l := by simpa using hp
          simp [hml, hby, hpt]
      | none =>
        rw [hml] at hp
        have hpt : st.peekByTypeId m.type m.id = some l := by simpa using hp
        simp [hml, hpt]
    by_cases hsd : (st.getIM k).scheduledDestroy = true
    · refine ⟨st.setIM k (fun im => { im with scheduledDestroy := false }),
        ?_, rfl, rfl, rfl, rfl, ?_⟩
      · simp [Store._internalModelForResource, Store.factoryLookup, constructResource,
          hgc, hfp, hsd]
      · intro j
        by_cases hj : k = j
        · subst hj
          rw [Store.getIM_setIM_self]
          simp [InternalModel.isDeleted]
        · rw [Store.getIM_setIM_ne st k j _ hj]
    · refine ⟨st, ?_, rfl, rfl, rfl, rfl, fun j => rfl⟩
      simp [Store._internalModelForResource, Store.factoryLookup, constructResource,
        hgc, hfp, hsd]

theorem hasManyIdsLoop_filters_deleted (members : List ResourceIdObj) :
    ∀ st : Store, (∀ m ∈ members, (st.memberModel m).isSome = true) →
    (st.hasManyIdsLoop members).2 =
      (members.filter (fun m => !(st.memberDeleted m))).map memberIdOrNull := by
  induction members with
  | nil =>
    intro st _
    simp [Store.hasManyIdsLoop]
  | cons m rest ih =>
    intro st hres
    have hm := hres m (List.mem_cons_self m rest)
    obtain ⟨k, hk⟩ := Option.isSome_iff_exists.mp hm
    obtain ⟨st', heq, hl, ht, hi, hmap, hdel⟩ := memberModel_resolves st m k hk
    have hmmAll : ∀ m', st'.memberModel m' = st.memberModel m' := by
      intro m'
      unfold Store.memberModel Store.peekRecordIdentifier Store.peekByTypeId
        Store.factoryPeek Store.modelMapGet Store.idValue
      simp only [hl, ht, hi, hmap]
    have hmdAll : ∀ m', st'.memberDeleted m' = st.memberDeleted m' := by
      intro m'
      unfold Store.memberDeleted
      rw [hmmAll m']
      cases hmm : st.memberModel m' with
      | none => rfl
      | some j => simp only [hdel j]
    have hresRest : ∀ m' ∈ rest, (st'.memberModel m').isSome = true := by
      intro m' hm'
      rw [hmmAll m']
      exact hres m' (List.mem_cons_of_mem m hm')
    have hmd : st.memberDeleted m = (st.getIM k).isDeleted := by
      unfold Store.memberDeleted
      rw [hk]
    have hfunext : (fun m' => !(st'.memberDeleted m')) = (fun m' => !(st.memberDeleted m')) :=
      funext fun m' => by rw [hmdAll m']
    unfold Store.hasManyIdsLoop
    rw [heq]
    by_cases hd : (st.getIM k).isDeleted = true
    · simp only [hdel k, hd, if_true]
      rw [ih st' hresRest, hfunext]
      simp [List.filter_cons, hmd, hd]
    · have hd' : (st.getIM k).isDeleted = false := by
        cases hval : (st.getIM k).isDeleted
        · rfl
        · exact absurd hval hd
      rcases hrest : st'.hasManyIdsLoop rest with ⟨st2, tl⟩
      have htl : tl = (rest.filter (fun m' => !(st.memberDeleted m'))).map memberIdOrNull := by
        have hih := ih st' hresRest
        rw [hrest] at hih
        rw [← hfunext]
        exact hih
      simp only [hdel k, hd', Bool.false_eq_true, if_false, hrest]
      simp [List.filter_cons, hmd, hd', htl]

theorem SnapPreserved.self (st : Store) : SnapPreserved st st :=
  ⟨Eq.refl _, Eq.refl _, Eq.refl _, Eq.refl _, fun _ => Eq.refl _, fun _ => Eq.refl _⟩

theorem SnapPreserved.comp {s1 s2 s3 : Store} (h1 : SnapPreserved s1 s2)
    (h2 : SnapPreserved s2 s3) : SnapPreserved s1 s3 := by
  obtain ⟨a1, b1, c1, d1, e1, f1⟩ := h1
  obtain ⟨a2, b2, c2, d2, e2, f2⟩ := h2
  exact ⟨a2.trans a1, b2.trans b1, c2.trans c1, d2.trans d1,
    fun j => (e2 j).trans (e1 j), fun j => (f2 j).trans (f1 j)⟩

theorem SnapPreserved.memberModel_eq {st st2 : Store} (h : SnapPreserved st st2)
    (m : ResourceIdObj) : st2.memberModel m = st.memberModel m := by
  obtain ⟨hl, ht, hi, hm, _, _⟩ := h
  unfold Store.memberModel Store.peekRecordIdentifier Store.peekByTypeId
    Store.factoryPeek Store.modelMapGet Store.idValue
  simp only [hl, ht, hi, hm]

theorem SnapPreserved.memberDeleted_eq {st st2 : Store} (h : SnapPreserved st st2)
    (m : ResourceIdObj) : st2.memberDeleted m = st.memberDeleted m := by
  unfold Store.memberDeleted
  rw [h.memberModel_eq m]
  cases st.memberModel m with
  | none => rfl
  | some j => exact h.2.2.2.2.1 j

theorem SnapPreserved.idValue_eq {st st2 : Store} (h : SnapPreserved st st2)
    (l : String) : st2.idValue l = st.idValue l := by
  unfold Store.idValue
  rw [h.2.2.1]

theorem memberModel_resolves_snap (st : Store) (m : ResourceIdObj) (k : Nat)
    (h : st.memberModel m = some k) :
    ∃ st2, st._internalModelForResource m = (st2, k) ∧ SnapPreserved st st2 ∧
      st2.nextSnapshot = st.nextSnapshot := by
  unfold Store.memberModel at h
  cases hp : st.peekRecordIdentifier m with
  | none => rw [hp] at h; cases h
  | some l =>
    rw [hp] at h
    have hfp : st.factoryPeek l = some k := h
    have hgc : st.getOrCreateRecordIdentifier m = (st, l) := by
      unfold Store.peekRecordIdentifier at hp
      unfold Store.getOrCreateRecordIdentifier Store.getOrCreateByTypeId
      cases hml : m.lid with
      | some l0 =>
        rw [hml] at hp
        simp only [] at hp
        cases hby : Tbl.get st.lids l0 with
        | some c =>
          rw [hby] at hp
          have hcl : c = l := by simpa using hp
          simp [hml, hby, hcl]
        | none =>
          rw [hby] at hp
          have hpt : st.peekByTypeId m.type m.id = some l := by simpa using hp
          simp [hml, hby, hpt]
      | none =>
        rw [hml] at hp
        have hpt : st.peekByTypeId m.type m.id = some l := by simpa using hp
        simp [hml, hpt]
    by_cases hsd : (st.getIM k).scheduledDestroy = true
    · refine ⟨st.setIM k (fun im => { im with scheduledDestroy := false }),
        ?_, ⟨Eq.refl _, Eq.refl _, Eq.refl _, Eq.refl _, ?_, ?_⟩, Eq.refl _⟩
      · simp [Store._internalModelForResource, Store.factoryLookup, constructResource,
          hgc, hfp, hsd]
      · intro j
        by_cases hj : k = j
        · subst hj
          rw [Store.getIM_setIM_self]
          simp [InternalModel.isDeleted]
        · rw [Store.getIM_setIM_ne st k j _ hj]
      · intro j
        by_cases hj : k = j
        · subst hj
          rw [Store.getIM_setIM_self]
        · rw [Store.getIM_setIM_ne st k j _ hj]
    · refine ⟨st, ?_, SnapPreserved.self st, Eq.refl _⟩
      simp [Store._internalModelForResource, Store.factoryLookup, constructResource,
        hgc, hfp, hsd]

theorem populateAttributes_preserved (st : Store) (snap : Snapshot) :
    SnapPreserved st (st.populateAttributes snap).1 ∧
    (st.populateAttributes snap).1.nextSnapshot = st.nextSnapshot := by
  unfold Store.populateAttributes
  cases snap.__attributes with
  | some a => exact ⟨SnapPreserved.self st, Eq.refl _⟩
  | none =>
    exact ⟨⟨Eq.refl _, Eq.refl _, Eq.refl _, Eq.refl _, fun _ => Eq.refl _, fun _ => Eq.refl _⟩,
      Eq.refl _⟩

theorem newSnapshot_preserved (st : Store) (lid : String)
    (h : (st.memberModel (resourceOfIdentifier (st.idValue lid))).isSome = true) :
    SnapPreserved st (st.newSnapshot lid).1 ∧
    (st.newSnapshot lid).1.nextSnapshot = st.nextSnapshot := by
  obtain ⟨k, hk⟩ := Option.isSome_iff_exists.mp h
  obtain ⟨st0, heq, hp0, hns0⟩ := memberModel_resolves_snap st _ k hk
  unfold Store.newSnapshot
  rw [heq]
  cases hr : (st0.getIM k).hasRecord with
  | false =>
    simp only [hr, Bool.false_eq_true, if_false]
    exact ⟨hp0, hns0⟩
  | true =>
    simp only [hr, if_true]
    obtain ⟨hp1, hns1⟩ := populateAttributes_preserved st0
      { identifierLid := lid, modelName := (st0.idValue lid).type, id := (st0.idValue lid).id,
        _belongsToRelationships := [], _belongsToIds := [],
        _hasManyRelationships := [], _hasManyIds := [],
        __attributes := none, _changedAttributes := none }
    exact ⟨SnapPreserved.comp hp0 hp1, hns1.trans hns0⟩

theorem createSnapshot_spec (st : Store) (lid : String)
    (h : (st.memberModel (resourceOfIdentifier (st.idValue lid))).isSome = true) :
    (st.createSnapshot lid).2 = st.nextSnapshot ∧
    SnapPreserved st (st.createSnapshot lid).1 ∧
    (st.createSnapshot lid).1.nextSnapshot = st.nextSnapshot + 1 := by
  obtain ⟨hp, hns⟩ := newSnapshot_preserved st lid h
  unfold Store.createSnapshot
  refine ⟨hns, ?_, ?_⟩
  · obtain ⟨h1, h2, h3, h4, h5, h6⟩ := hp
    exact ⟨h1, h2, h3, h4, h5, h6⟩
  · show (st.newSnapshot lid).1.nextSnapshot + 1 = st.nextSnapshot + 1
    rw [hns]

theorem hasManySnapshotsLoop_filters_deleted (members : List ResourceIdObj) :
    ∀ st : Store,
    (∀ m ∈ members, (st.memberModel m).isSome = true) →
    (∀ m ∈ members, ∀ k, st.memberModel m = some k → st.memberDeleted m = false →
      (st.memberModel (resourceOfIdentifier (st.idValue ((st.getIM k).lid)))).isSome = true) →
    (st.hasManySnapshotsLoop members).2 =
      List.range' st.nextSnapshot (members.filter (fun m => !(st.memberDeleted m))).length := by
  induction members with
  | nil =>
    intro st _ _
    rfl
  | cons m rest ih =>
    intro st hres hres2
    obtain ⟨k, hk⟩ := Option.isSome_iff_exists.mp (hres m (List.mem_cons_self m rest))
    obtain ⟨st1, heq, hp1, hns1⟩ := memberModel_resolves_snap st m k hk
    have hmd : st.memberDeleted m = (st.getIM k).isDeleted := by
      unfold Store.memberDeleted
      rw [hk]
    unfold Store.hasManySnapshotsLoop
    rw [heq]
    by_cases hd : (st.getIM k).isDeleted = true
    · simp only [hp1.2.2.2.2.1 k, hd, if_true]
      have hresR : ∀ m2 ∈ rest, (st1.memberModel m2).isSome = true := by
        intro m2 hm2
        rw [hp1.memberModel_eq m2]
        exact hres m2 (List.mem_cons_of_mem m hm2)
      have hres2R : ∀ m2 ∈ rest, ∀ k2, st1.memberModel m2 = some k2 →
          st1.memberDeleted m2 = false →
          (st1.memberModel (resourceOfIdentifier (st1.idValue ((st1.getIM k2).lid)))).isSome = true := by
        intro m2 hm2 k2 hk2 hnd2
        rw [hp1.memberModel_eq, hp1.idValue_eq, hp1.2.2.2.2.2 k2]
        rw [hp1.memberModel_eq m2] at hk2
        rw [hp1.memberDeleted_eq m2] at hnd2
        exact hres2 m2 (List.mem_cons_of_mem m hm2) k2 hk2 hnd2
      rw [ih st1 hresR hres2R, hns1]
      have hfun : (fun m2 => !(st1.memberDeleted m2)) = (fun m2 => !(st.memberDeleted m2)) :=
        funext fun m2 => by rw [hp1.memberDeleted_eq m2]
      rw [hfun]
      simp [List.filter_cons, hmd, hd]
    · have hd2 : (st.getIM k).isDeleted = false := by
        cases hval : (st.getIM k).isDeleted
        · rfl
        · exact absurd hval hd
      have hcsH : (st1.memberModel (resourceOfIdentifier (st1.idValue ((st1.getIM k).lid)))).isSome = true := by
        rw [hp1.memberModel_eq, hp1.idValue_eq, hp1.2.2.2.2.2 k]
        exact hres2 m (List.mem_cons_self m rest) k hk (hmd.trans hd2)
      obtain ⟨hch, hcp, hcn⟩ := createSnapshot_spec st1 ((st1.getIM k).lid) hcsH
      rcases hcs : st1.createSnapshot ((st1.getIM k).lid) with ⟨st2, hh⟩
      rw [hcs] at hch hcp hcn
      have hch2 : hh = st1.nextSnapshot := hch
      have hcp2 : SnapPreserved st1 st2 := hcp
      have hcn2 : st2.nextSnapshot = st1.nextSnapshot + 1 := hcn
      have hP : SnapPreserved st st2 := SnapPreserved.comp hp1 hcp2
      have hresR : ∀ m2 ∈ rest, (st2.memberModel m2).isSome = true := by
        intro m2 hm2
        rw [hP.memberModel_eq m2]
        exact hres m2 (List.mem_cons_of_mem m hm2)
      have hres2R : ∀ m2 ∈ rest, ∀ k2, st2.memberModel m2 = some k2 →
          st2.memberDeleted m2 = false →
          (st2.memberModel (resourceOfIdentifier (st2.idValue ((st2.getIM k2).lid)))).isSome = true := by
        intro m2 hm2 k2 hk2 hnd2
        rw [hP.memberModel_eq, hP.idValue_eq, hP.2.2.2.2.2 k2]
        rw [hP.memberModel_eq m2] at hk2
        rw [hP.memberDeleted_eq m2] at hnd2
        exact hres2 m2 (List.mem_cons_of_mem m hm2) k2 hk2 hnd2
      simp only [hp1.2.2.2.2.1 k, hd2, Bool.false_eq_true, if_false, hcs]
      rcases hrest : st2.hasManySnapshotsLoop rest with ⟨st3, tl⟩
      have htl : tl = List.range' st2.nextSnapshot
          (rest.filter (fun m2 => !(st2.memberDeleted m2))).length := by
        have hih := ih st2 hresR hres2R
        rw [hrest] at hih
        exact hih
      have hfun : (fun m2 => !(st2.memberDeleted m2)) = (fun m2 => !(st.memberDeleted m2)) :=
        funext fun m2 => by rw [hP.memberDeleted_eq m2]
      show hh :: tl = _
      rw [htl, hfun, hch2, hcn2, hns1]
      simp [List.filter_cons, hmd, hd2, List.range']

/-- C9: `Snapshot.belongsTo` returns null when the related record's internal
model is deleted (both in id mode and snapshot mode), and `Snapshot.hasMany`
omits — in both return modes — every member whose internal model is deleted,
even though the relationship's raw data still lists those members: the id mode
returns exactly the ids of the non-deleted members, and the snapshot mode
creates exactly one fresh snapshot handle per non-deleted member (consecutive
handles starting at the store's next snapshot counter). -/
theorem snapshot_drops_deleted_relations :
    (∀ (snap : Snapshot) (st : Store) (key : String) (linkage : ResourceIdObj)
        (stX : Store) (k : Nat),
      Tbl.get st.schemaRels (snap.modelName, key) = some RelKind.belongsTo →
      Tbl.get st.graph (snap.identifierLid, key) = some (RelEdge.one (some (some linkage))) →
      st._internalModelForResource linkage = (stX, k) →
      (stX.getIM k).isDeleted = true →
      (Tbl.get snap._belongsToIds key = none →
        snap.belongsTo st key true =
          (.ok (BelongsToOut.idOut (some none)),
           { snap with _belongsToIds := Tbl.set snap._belongsToIds key (some none) }, stX)) ∧
      (Tbl.get snap._belongsToRelationships key = none →
        snap.belongsTo st key false =
          (.ok (BelongsToOut.snapOut (some none)),
           { snap with
              _belongsToRelationships :=
                Tbl.set snap._belongsToRelationships key (some none) }, stX))) ∧
    (∀ (snap : Snapshot) (st : Store) (key : String) (members : List ResourceIdObj),
      Tbl.get st.schemaRels (snap.modelName, key) = some RelKind.hasMany →
      Tbl.get st.graph (snap.identifierLid, key) = some (RelEdge.many (some members)) →
      Tbl.get snap._hasManyIds key = none →
      (∀ m ∈ members, (st.memberModel m).isSome = true) →
      snap.hasMany st key true =
        (.ok (HasManyOut.idsOut (some
            ((members.filter (fun m => !(st.memberDeleted m))).map memberIdOrNull))),
         { snap with
            _hasManyIds := Tbl.set snap._hasManyIds key (some
              ((members.filter (fun m => !(st.memberDeleted m))).map memberIdOrNull)) },
         (st.hasManyIdsLoop members).1)) ∧
    (∀ (snap : Snapshot) (st : Store) (key : String) (members : List ResourceIdObj),
      Tbl.get st.schemaRels (snap.modelName, key) = some RelKind.hasMany →
      Tbl.get st.graph (snap.identifierLid, key) = some (RelEdge.many (some members)) →
      Tbl.get snap._hasManyRelationships key = none →
      (∀ m ∈ members, (st.memberModel m).isSome = true) →
      (∀ m ∈ members, ∀ k, st.memberModel m = some k → st.memberDeleted m = false →
        (st.memberModel (resourceOfIdentifier (st.idValue ((st.getIM k).lid)))).isSome = true) →
      snap.hasMany st key false =
        (.ok (HasManyOut.snapsOut (some (List.range' st.nextSnapshot
            ((members.filter (fun m => !(st.memberDeleted m))).length)))),
         { snap with
            _hasManyRelationships := Tbl.set snap._hasManyRelationships key
              (some (List.range' st.nextSnapshot
                ((members.filter (fun m => !(st.memberDeleted m))).length))) },
         (st.hasManySnapshotsLoop members).1)) := by
  refine ⟨?_, ?_, ?_⟩
  · intro snap st key linkage stX k hs hg him hdel
    constructor
    · intro hc
      unfold Snapshot.belongsTo
      simp only [hc]
      unfold Snapshot.belongsToCompute
      simp [hs, hg, him, hdel]
    · intro hc
      unfold Snapshot.belongsTo
      simp only [hc]
      unfold Snapshot.belongsToCompute
      simp [hs, hg, him, hdel]
  · intro snap st key members hs hg hc hres
    rcases hloop : st.hasManyIdsLoop members with ⟨stL, ids⟩
    have hids : ids = (members.filter (fun m => !(st.memberDeleted m))).map memberIdOrNull := by
      have hfil := hasManyIdsLoop_filters_deleted members st hres
      rw [hloop] at hfil
      exact hfil
    unfold Snapshot.hasMany
    simp only [hc]
    unfold Snapshot.hasManyCompute
    simp [hs, hg, hloop, hids]
  · intro snap st key members hs hg hc hres hres2
    rcases hloop : st.hasManySnapshotsLoop members with ⟨stL, hsnaps⟩
    have hhs : hsnaps = List.range' st.nextSnapshot
        ((members.filter (fun m => !(st.memberDeleted m))).length) := by
      have hfil := hasManySnapshotsLoop_filters_deleted members st hres hres2
      rw [hloop] at hfil
      exact hfil
    unfold Snapshot.hasMany
    simp only [hc]
    unfold Snapshot.hasManyCompute
    simp [hs, hg, hloop, hhs]

/-- Witness for C9 in `deletedRelStore`: the belongs-to of a deleted `post:9` is
null, and the has-many over a deleted `comment:5` member is the empty array even
though the raw edge data still lists the member. -/
theorem snapshot_drops_deleted_relations_witness :
    relSnapshot.belongsTo deletedRelStore "post" true =
      (.ok (BelongsToOut.idOut (some none)),
       { relSnapshot with _belongsToIds := [("post", some none)] }, deletedRelStore) ∧
    relSnapshotPost.hasMany deletedRelStore "comments" true =
      (.ok (HasManyOut.idsOut (some [])),
       { relSnapshotPost with _hasManyIds := [("comments", some [])] }, deletedRelStore) ∧
    relSnapshotPost.hasMany deletedRelStore "comments" false =
      (.ok (HasManyOut.snapsOut (some [])),
       { relSnapshotPost with _hasManyRelationships := [("comments", some [])] },
       deletedRelStore) := by
  refine ⟨?_, ?_, ?_⟩
  · exact (snapshot_drops_deleted_relations.1 relSnapshot deletedRelStore "post"
      ⟨"post", some "9", none⟩ deletedRelStore 1 rfl rfl rfl rfl).1 rfl
  · exact snapshot_drops_deleted_relations.2.1 relSnapshotPost deletedRelStore "comments"
      [⟨"comment", some "5", none⟩] rfl rfl rfl (by decide)
  · exact snapshot_drops_deleted_relations.2.2 relSnapshotPost deletedRelStore "comments"
      [⟨"comment", some "5", none⟩] rfl rfl rfl (by decide)
      (by
        intro m hm k hk hnd
        rw [List.mem_singleton] at hm
        subst hm
        exact absurd hnd (by decide))

/-! ## C10 — attributes() and changedAttributes() return fresh copies -/


theorem Store.dictContents_allocObj_self (st : Store) (es : List (String × JVal)) :
    (st.allocObj (JObj.dict es)).1.dictContents st.nextAddr = es := by
  simp [Store.allocObj, Store.dictContents, Tbl.get_set_self]

theorem Store.dictContents_allocObj_ne (st : Store) (o : JObj) (a : Nat)
    (h : a ≠ st.nextAddr) :
    (st.allocObj o).1.dictContents a = st.dictContents a := by
  simp only [Store.allocObj, Store.dictContents]
  rw [Tbl.get_set_ne _ _ _ _ (Ne.symm h)]

theorem Store.dictContents_setObj_self (st : Store) (addr : Nat) (es : List (String × JVal)) :
    (st.setObj addr (JObj.dict es)).dictContents addr = es := by
  simp [Store.setObj, Store.dictContents, Tbl.get_set_self]

theorem Store.dictContents_setObj_ne (st : Store) (addr : Nat) (o : JObj) (a : Nat)
    (h : a ≠ addr) :
    (st.setObj addr o).dictContents a = st.dictContents a := by
  simp only [Store.setObj, Store.dictContents]
  rw [Tbl.get_set_ne _ _ _ _ (Ne.symm h)]

theorem Store.arrContents_allocObj_self (st : Store) (es : List JVal) :
    (st.allocObj (JObj.arr es)).1.arrContents st.nextAddr = es := by
  simp [Store.allocObj, Store.arrContents, Tbl.get_set_self]

theorem Store.arrContents_allocObj_ne (st : Store) (o : JObj) (a : Nat)
    (h : a ≠ st.nextAddr) :
    (st.allocObj o).1.arrContents a = st.arrContents a := by
  simp only [Store.allocObj, Store.arrContents]
  rw [Tbl.get_set_ne _ _ _ _ (Ne.symm h)]

theorem Store.arrContents_setObj_ne (st : Store) (addr : Nat) (o : JObj) (a : Nat)
    (h : a ≠ addr) :
    (st.setObj addr o).arrContents a = st.arrContents a := by
  simp only [Store.setObj, Store.arrContents]
  rw [Tbl.get_set_ne _ _ _ _ (Ne.symm h)]

theorem attributes_populated (snap : Snapshot) (st : Store) (a : Nat)
    (hattr : snap.__attributes = some a) :
    snap.attributes st =
      ((st.allocObj (JObj.dict (st.dictContents a))).1, snap, st.nextAddr) := by
  unfold Snapshot.attributes Store.populateAttributes
  rw [hattr]
  rfl

theorem attributes_unpopulated (snap : Snapshot) (st : Store)
    (hattr : snap.__attributes = none) :
    snap.attributes st =
      (((st.allocObj (JObj.dict (st.attributeEntries snap))).1.allocObj
          (JObj.dict
            ((st.allocObj (JObj.dict (st.attributeEntries snap))).1.dictContents
              st.nextAddr))).1,
       { snap with __attributes := some st.nextAddr },
       st.nextAddr + 1) := by
  unfold Snapshot.attributes Store.populateAttributes
  rw [hattr]
  rfl

theorem attributes_fresh_copy (snap : Snapshot) (st st2 : Store) (snap1 : Snapshot)
    (addr : Nat)
    (hbound : ∀ a, snap.__attributes = some a → a < st.nextAddr)
    (h : snap.attributes st = (st2, snap1, addr)) :
    st.nextAddr ≤ addr ∧
    (∀ a, snap1.__attributes = some a → a ≠ addr) ∧
    (∀ o a, snap1.__attributes = some a →
      (st2.setObj addr o).dictContents a = st2.dictContents a) ∧
    (∀ o, ((snap1.attributes (st2.setObj addr o)).1).dictContents
        ((snap1.attributes (st2.setObj addr o)).2.2) = st2.dictContents addr) := by
  cases hattr : snap.__attributes with
  | some a =>
    have ha : a < st.nextAddr := hbound a hattr
    have hform := attributes_populated snap st a hattr
    rw [h] at hform
    simp only [Prod.mk.injEq] at hform
    obtain ⟨h1, h2, h3⟩ := hform
    subst h1
    have h2s : snap = snap1 := h2.symm
    subst h2s
    subst h3
    refine ⟨Nat.le_refl _, ?_, ?_, ?_⟩
    · intro a' ha'
      rw [hattr] at ha'
      obtain rfl : a = a' := Option.some.inj ha'
      exact Nat.ne_of_lt ha
    · intro o a' ha'
      rw [hattr] at ha'
      obtain rfl : a = a' := Option.some.inj ha'
      exact Store.dictContents_setObj_ne _ _ _ _ (Nat.ne_of_lt ha)
    · intro o
      set ALLOC := (st.allocObj (JObj.dict (st.dictContents a))).1 with hA
      set MUT := ALLOC.setObj st.nextAddr o with hM
      have hMa : MUT.dictContents a = st.dictContents a := by
        rw [hM, Store.dictContents_setObj_ne _ _ _ _ (Nat.ne_of_lt ha), hA,
          Store.dictContents_allocObj_ne _ _ _ (Nat.ne_of_lt ha)]
      have hMn : MUT.nextAddr = st.nextAddr + 1 := rfl
      rw [attributes_populated snap MUT a hattr]
      have hself : (MUT.allocObj (JObj.dict (MUT.dictContents a))).1.dictContents
          MUT.nextAddr = MUT.dictContents a :=
        Store.dictContents_allocObj_self MUT (MUT.dictContents a)
      show (MUT.allocObj (JObj.dict (MUT.dictContents a))).1.dictContents MUT.nextAddr =
        ALLOC.dictContents st.nextAddr
      rw [hself, hMa, hA, Store.dictContents_allocObj_self]
  | none =>
    have hform := attributes_unpopulated snap st hattr
    rw [h] at hform
    simp only [Prod.mk.injEq] at hform
    obtain ⟨h1, h2, h3⟩ := hform
    subst h1
    subst h2
    subst h3
    refine ⟨Nat.le_succ _, ?_, ?_, ?_⟩
    · intro a' ha'
      obtain rfl : st.nextAddr = a' := Option.some.inj ha'
      exact Nat.ne_of_lt (Nat.lt_succ_self _)
    · intro o a' ha'
      obtain rfl : st.nextAddr = a' := Option.some.inj ha'
      exact Store.dictContents_setObj_ne _ _ _ _ (Nat.ne_of_lt (Nat.lt_succ_self _))
    · intro o
      set E := st.attributeEntries snap with hE
      set A1 := (st.allocObj (JObj.dict E)).1 with hA1
      set ST2 := (A1.allocObj (JObj.dict (A1.dictContents st.nextAddr))).1 with hS2
      set MUT := ST2.setObj (st.nextAddr + 1) o with hM
      have hattr1 : ({ snap with __attributes := some st.nextAddr } : Snapshot).__attributes =
          some st.nextAddr := rfl
      rw [attributes_populated _ MUT st.nextAddr hattr1]
      have hself : (MUT.allocObj (JObj.dict (MUT.dictContents st.nextAddr))).1.dictContents
          MUT.nextAddr = MUT.dictContents st.nextAddr :=
        Store.dictContents_allocObj_self MUT (MUT.dictContents st.nextAddr)
      show (MUT.allocObj (JObj.dict (MUT.dictContents st.nextAddr))).1.dictContents
          MUT.nextAddr = ST2.dictContents (st.nextAddr + 1)
      rw [hself]
      have hMn : MUT.dictContents st.nextAddr = ST2.dictContents st.nextAddr := by
        rw [hM]
        exact Store.dictContents_setObj_ne _ _ _ _
          (Nat.ne_of_lt (Nat.lt_succ_self _))
      rw [hMn]
      have hS2a : ST2.dictContents st.nextAddr = A1.dictContents st.nextAddr := by
        rw [hS2]
        have hA1n : A1.nextAddr = st.nextAddr + 1 := rfl
        have := Store.dictContents_allocObj_ne A1
          (JObj.dict (A1.dictContents st.nextAddr)) st.nextAddr
          (by rw [hA1n]; exact Nat.ne_of_lt (Nat.lt_succ_self _))
        exact this
      have hS2addr : ST2.dictContents (st.nextAddr + 1) = A1.dictContents st.nextAddr := by
        rw [hS2]
        have hA1n : A1.nextAddr = st.nextAddr + 1 := rfl
        have := Store.dictContents_allocObj_self A1 (A1.dictContents st.nextAddr)
        rw [hA1n] at this
        exact this
      rw [hS2a, hS2addr]

theorem Store.arrContents_eq_of_get (st st' : Store) (a : Nat)
    (h : Tbl.get st'.heap a = Tbl.get st.heap a) :
    st'.arrContents a = st.arrContents a := by
  simp [Store.arrContents, h]

theorem copyChangedEntries_cons (st : Store) (key : String) (a0 : Nat)
    (tl : List (String × Nat)) :
    st.copyChangedEntries ((key, a0) :: tl) =
      (((st.allocObj (JObj.arr (st.arrContents a0))).1.copyChangedEntries tl).1,
       (key, JVal.ref st.nextAddr) ::
         ((st.allocObj (JObj.arr (st.arrContents a0))).1.copyChangedEntries tl).2) :=
  rfl

theorem copyChangedEntries_spec (ca : List (String × Nat)) :
    ∀ st : Store,
    st.nextAddr ≤ (st.copyChangedEntries ca).1.nextAddr ∧
    (∀ a, a < st.nextAddr →
      Tbl.get (st.copyChangedEntries ca).1.heap a = Tbl.get st.heap a) ∧
    (∀ e ∈ ca, e.2 < st.nextAddr → ∃ a1,
      (e.1, JVal.ref a1) ∈ (st.copyChangedEntries ca).2 ∧
      st.nextAddr ≤ a1 ∧ a1 < (st.copyChangedEntries ca).1.nextAddr ∧
      (st.copyChangedEntries ca).1.arrContents a1 = st.arrContents e.2) := by
  induction ca with
  | nil =>
    intro st
    exact ⟨Nat.le_refl _, fun a _ => rfl, fun e he => absurd he (List.not_mem_nil e)⟩
  | cons hd tl ih =>
    intro st
    obtain ⟨key, a0⟩ := hd
    rw [copyChangedEntries_cons]
    set A1 := (st.allocObj (JObj.arr (st.arrContents a0))).1 with hA1
    obtain ⟨ihLe, ihHeap, ihMem⟩ := ih A1
    have hA1n : A1.nextAddr = st.nextAddr + 1 := rfl
    have hLe : st.nextAddr ≤ (A1.copyChangedEntries tl).1.nextAddr := by
      calc st.nextAddr ≤ st.nextAddr + 1 := Nat.le_succ _
      _ = A1.nextAddr := hA1n.symm
      _ ≤ _ := ihLe
    have hHeap : ∀ a, a < st.nextAddr →
        Tbl.get (A1.copyChangedEntries tl).1.heap a = Tbl.get st.heap a := by
      intro a hlt
      have h1 : Tbl.get (A1.copyChangedEntries tl).1.heap a = Tbl.get A1.heap a :=
        ihHeap a (by rw [hA1n]; exact Nat.lt_succ_of_lt hlt)
      have h2 : Tbl.get A1.heap a = Tbl.get st.heap a := by
        rw [hA1]
        show Tbl.get (Tbl.set st.heap st.nextAddr (JObj.arr (st.arrContents a0))) a =
          Tbl.get st.heap a
        exact Tbl.get_del_ne _ _ _ (Ne.symm (Nat.ne_of_lt hlt)) ▸
          Tbl.get_set_ne st.heap st.nextAddr a _ (Ne.symm (Nat.ne_of_lt hlt))
      exact h1.trans h2
    refine ⟨hLe, hHeap, ?_⟩
    intro e he hlt
    rcases List.mem_cons.mp he with heq | htl
    · subst heq
      refine ⟨st.nextAddr, List.mem_cons_self _ _, Nat.le_refl _, ?_, ?_⟩
      · calc st.nextAddr < st.nextAddr + 1 := Nat.lt_succ_self _
        _ = A1.nextAddr := hA1n.symm
        _ ≤ _ := ihLe
      · have hpres : Tbl.get (A1.copyChangedEntries tl).1.heap st.nextAddr =
            Tbl.get A1.heap st.nextAddr := by
          apply ihHeap
          rw [hA1n]
          exact Nat.lt_succ_self _
        have hg : Tbl.get A1.heap st.nextAddr = some (JObj.arr (st.arrContents a0)) := by
          rw [hA1]
          exact Tbl.get_set_self st.heap st.nextAddr _
        show (A1.copyChangedEntries tl).1.arrContents st.nextAddr = st.arrContents a0
        simp [Store.arrContents, hpres, hg]
    · obtain ⟨a1, hmem, hge, hlt1, hcont⟩ := ihMem e htl
        (by rw [hA1n]; exact Nat.lt_succ_of_lt hlt)
      refine ⟨a1, List.mem_cons_of_mem _ hmem, ?_, hlt1, ?_⟩
      · calc st.nextAddr ≤ st.nextAddr + 1 := Nat.le_succ _
        _ = A1.nextAddr := hA1n.symm
        _ ≤ a1 := hge
      · rw [hcont, hA1]
        exact Store.arrContents_allocObj_ne st _ e.2 (Nat.ne_of_lt hlt)

theorem changedAttributes_eq (snap : Snapshot) (st : Store) (ca : List (String × Nat))
    (hca : snap._changedAttributes = some ca) :
    snap.changedAttributes st =
      (st.copyChangedEntries ca).1.allocObj (JObj.dict (st.copyChangedEntries ca).2) := by
  unfold Snapshot.changedAttributes
  rw [hca]

theorem changedAttributes_fresh_copy (snap : Snapshot) (st stF : Store)
    (addr : Nat) (ca : List (String × Nat))
    (hca : snap._changedAttributes = some ca)
    (hbound : ∀ e ∈ ca, (e : String × Nat).2 < st.nextAddr)
    (h : snap.changedAttributes st = (stF, addr)) :
    st.nextAddr ≤ addr ∧
    (∀ e ∈ ca, ∃ a1, ((e : String × Nat).1, JVal.ref a1) ∈ stF.dictContents addr ∧
       st.nextAddr ≤ a1 ∧ stF.arrContents a1 = st.arrContents e.2) ∧
    (∀ aMut, st.nextAddr ≤ aMut → ∀ o, ∀ e ∈ ca,
       (stF.setObj aMut o).arrContents (e : String × Nat).2 = st.arrContents e.2) ∧
    (∀ aMut, st.nextAddr ≤ aMut → ∀ o, ∀ e ∈ ca, ∃ a2,
       ((e : String × Nat).1, JVal.ref a2) ∈
         ((snap.changedAttributes (stF.setObj aMut o)).1).dictContents
           ((snap.changedAttributes (stF.setObj aMut o)).2) ∧
       ((snap.changedAttributes (stF.setObj aMut o)).1).arrContents a2 =
         st.arrContents e.2) := by
  rw [changedAttributes_eq snap st ca hca] at h
  set C1 := (st.copyChangedEntries ca).1 with hC1
  obtain ⟨sLe, sHeap, sMem⟩ := copyChangedEntries_spec ca st
  rw [← hC1] at sLe sHeap sMem
  have hstF : stF = (C1.allocObj (JObj.dict (st.copyChangedEntries ca).2)).1 := by
    rw [h]
  have haddr : addr = C1.nextAddr := (congrArg Prod.snd h).symm
  have hC1arr : ∀ a, a < st.nextAddr → C1.arrContents a = st.arrContents a := by
    intro a hlt
    exact Store.arrContents_eq_of_get st C1 a (sHeap a hlt)
  refine ⟨haddr ▸ sLe, ?_, ?_, ?_⟩
  · intro e he
    obtain ⟨a1, hmem, hge, hlt1, hcont⟩ := sMem e he (hbound e he)
    refine ⟨a1, ?_, hge, ?_⟩
    · rw [hstF, haddr]
      rw [Store.dictContents_allocObj_self]
      exact hmem
    · rw [hstF]
      rw [Store.arrContents_allocObj_ne C1 _ a1 (Nat.ne_of_lt hlt1)]
      exact hcont
  · intro aMut hge o e he
    have hlt := hbound e he
    have h1 : (stF.setObj aMut o).arrContents e.2 = stF.arrContents e.2 := by
      apply Store.arrContents_setObj_ne
      exact Nat.ne_of_lt (Nat.lt_of_lt_of_le hlt hge)
    have h2 : stF.arrContents e.2 = C1.arrContents e.2 := by
      rw [hstF]
      apply Store.arrContents_allocObj_ne
      exact Nat.ne_of_lt (Nat.lt_of_lt_of_le hlt sLe)
    rw [h1, h2, hC1arr e.2 hlt]
  · intro aMut hge o e he
    set MUT := stF.setObj aMut o with hMUT
    have hMUTn : MUT.nextAddr = C1.nextAddr + 1 := by
      rw [hMUT, hstF]
      rfl
    have hMUTarr : ∀ a, a < st.nextAddr → MUT.arrContents a = st.arrContents a := by
      intro a hlt
      have h1 : MUT.arrContents a = stF.arrContents a := by
        rw [hMUT]
        apply Store.arrContents_setObj_ne
        exact Nat.ne_of_lt (Nat.lt_of_lt_of_le hlt hge)
      have h2 : stF.arrContents a = C1.arrContents a := by
        rw [hstF]
        apply Store.arrContents_allocObj_ne
        exact Nat.ne_of_lt (Nat.lt_of_lt_of_le hlt sLe)
      rw [h1, h2, hC1arr a hlt]
    rw [changedAttributes_eq snap MUT ca hca]
    set C2 := (MUT.copyChangedEntries ca).1 with hC2
    obtain ⟨sLe2, sHeap2, sMem2⟩ := copyChangedEntries_spec ca MUT
    rw [← hC2] at sLe2 sHeap2 sMem2
    have hlt2 : e.2 < MUT.nextAddr := by
      rw [hMUTn]
      exact Nat.lt_of_lt_of_le (hbound e he)
        (Nat.le_trans sLe (Nat.le_succ _))
    obtain ⟨a2, hmem2, _, hlt2', hcont2⟩ := sMem2 e he hlt2
    refine ⟨a2, ?_, ?_⟩
    · show ((e : String × Nat).1, JVal.ref a2) ∈
        (C2.allocObj (JObj.dict (MUT.copyChangedEntries ca).2)).1.dictContents
          C2.nextAddr
      rw [Store.dictContents_allocObj_self]
      exact hmem2
    · show (C2.allocObj (JObj.dict (MUT.copyChangedEntries ca).2)).1.arrContents a2 =
        st.arrContents e.2
      rw [Store.arrContents_allocObj_ne C2 _ a2 (Nat.ne_of_lt hlt2')]
      rw [hcont2, hMUTarr e.2 (hbound e he)]

/-- C10: `Snapshot.attributes` and `Snapshot.changedAttributes` hand the caller
freshly allocated copies: the returned attribute dictionary lives at a fresh heap
address distinct from the snapshot's internal `__attributes` object, mutating the
returned dictionary leaves the internal one unchanged and a subsequent
`attributes` call still yields the same contents; likewise every changed-attribute
`[old, new]` array in the `changedAttributes` result is a fresh copy whose
mutation cannot alter the snapshot's internal arrays, and a repeated
`changedAttributes` call still reproduces the original contents. -/
theorem snapshot_attribute_copies_are_fresh
    (snap : Snapshot) (st st2 : Store) (snap1 : Snapshot) (addr : Nat)
    (stc : Store) (addrc : Nat) (ca : List (String × Nat))
    (hbound : ∀ a, snap.__attributes = some a → a < st.nextAddr)
    (h : snap.attributes st = (st2, snap1, addr))
    (hca : snap._changedAttributes = some ca)
    (hboundc : ∀ e ∈ ca, (e : String × Nat).2 < st.nextAddr)
    (hc : snap.changedAttributes st = (stc, addrc)) :
    (st.nextAddr ≤ addr ∧
     (∀ a, snap1.__attributes = some a → a ≠ addr) ∧
     (∀ o a, snap1.__attributes = some a →
       (st2.setObj addr o).dictContents a = st2.dictContents a) ∧
     (∀ o, ((snap1.attributes (st2.setObj addr o)).1).dictContents
         ((snap1.attributes (st2.setObj addr o)).2.2) = st2.dictContents addr)) ∧
    (st.nextAddr ≤ addrc ∧
     (∀ e ∈ ca, ∃ a1, ((e : String × Nat).1, JVal.ref a1) ∈ stc.dictContents addrc ∧
        st.nextAddr ≤ a1 ∧ stc.arrContents a1 = st.arrContents e.2) ∧
     (∀ aMut, st.nextAddr ≤ aMut → ∀ o, ∀ e ∈ ca,
        (stc.setObj aMut o).arrContents (e : String × Nat).2 = st.arrContents e.2) ∧
     (∀ aMut, st.nextAddr ≤ aMut → ∀ o, ∀ e ∈ ca, ∃ a2,
        ((e : String × Nat).1, JVal.ref a2) ∈
          ((snap.changedAttributes (stc.setObj aMut o)).1).dictContents
            ((snap.changedAttributes (stc.setObj aMut o)).2) ∧
        ((snap.changedAttributes (stc.setObj aMut o)).1).arrContents a2 =
          st.arrContents e.2)) :=
  ⟨attributes_fresh_copy snap st st2 snap1 addr hbound h,
   changedAttributes_fresh_copy snap st stc addrc ca hca hboundc hc⟩

theorem snapshot_attribute_copies_are_fresh_witness :
    (∀ a, attrSnapshot.__attributes = some a → a < attrStore.nextAddr) ∧
    (∀ e ∈ [("title", (1 : Nat))], (e : String × Nat).2 < attrStore.nextAddr) ∧
    attrStore.nextAddr ≤ (attrSnapshot.attributes attrStore).2.2 ∧
    attrStore.nextAddr ≤ (attrSnapshot.changedAttributes attrStore).2 := by
  have hb1 : ∀ a, attrSnapshot.__attributes = some a → a < attrStore.nextAddr := by
    intro a ha
    have h0 : (0 : Nat) = a := Option.some.inj ha
    subst h0
    decide
  have hb2 : ∀ e ∈ [("title", (1 : Nat))], (e : String × Nat).2 < attrStore.nextAddr := by
    intro e he
    rw [List.mem_singleton] at he
    subst he
    decide
  have happ := snapshot_attribute_copies_are_fresh attrSnapshot attrStore
    (attrSnapshot.attributes attrStore).1 (attrSnapshot.attributes attrStore).2.1
    (attrSnapshot.attributes attrStore).2.2
    (attrSnapshot.changedAttributes attrStore).1
    (attrSnapshot.changedAttributes attrStore).2
    [("title", (1 : Nat))] hb1 rfl rfl hb2 rfl
  exact ⟨hb1, hb2, happ.1.1, happ.2.1⟩

theorem factoryLookup_resolved (ST2 : Store) (ty newId matchedLid : String) (kS : Nat)
    (h1 : Tbl.get ST2.lids matchedLid = some matchedLid)
    (h2 : Tbl.get ST2.idValues matchedLid = some ⟨ty, some newId, matchedLid⟩)
    (h3 : Tbl.get ST2.modelMap (ty, matchedLid) = some kS)
    (h4 : (ST2.getIM kS).scheduledDestroy = false) :
    ST2.factoryLookup ⟨ty, some newId, some matchedLid⟩ none = (ST2, kS) := by
  simp [Store.factoryLookup, Store.getOrCreateRecordIdentifier, h1,
    Store.factoryPeek, Store.idValue, h2, Store.modelMapGet, h3, h4]

theorem updateRecordIdentifier_merge (st SH : Store) (data : ExistingResourceObject)
    (newId identLid matchedLid : String) (curId : Option String)
    (hid : data.id = some newId)
    (hcur : Tbl.get st.idValues identLid = some ⟨data.type, curId, identLid⟩)
    (hcurne : curId ≠ some newId)
    (hmatch : Tbl.get st.typeIds (data.type, newId) = some matchedLid)
    (hmne : matchedLid ≠ identLid)
    (hmid : Tbl.get st.idValues matchedLid = some ⟨data.type, some newId, matchedLid⟩)
    (hhook : st.configureMergeHook identLid matchedLid ⟨some (some newId), some data.type⟩ =
      (.ok matchedLid, SH))
    (hSHidv : SH.idValues = st.idValues)
    (hSHlids : SH.lids = st.lids)
    (hSHty : SH.typeIds = st.typeIds) :
    st.updateRecordIdentifier identLid data =
      (.ok matchedLid,
       { SH with
         idValues := Tbl.set SH.idValues matchedLid ⟨data.type, some newId, matchedLid⟩,
         lids := Tbl.set (Tbl.del SH.lids identLid) identLid matchedLid,
         typeIds := Tbl.set (Tbl.del (match curId with
           | some c => Tbl.del SH.typeIds (data.type, c)
           | none => SH.typeIds) (data.type, newId)) (data.type, newId) matchedLid }) := by
  simp only [Store.updateRecordIdentifier, Store.idValue, hcur, Option.getD_some, hid]
  simp only [hmatch]
  rw [if_neg hcurne]
  rw [if_neg hmne]
  rw [hhook]
  simp only [Store.forgetRecordIdentifier, Store.setIdentifierId, Store.idValue]
  simp [hmne, hSHidv, hSHlids, hSHty, hcur, hmid]
  cases curId with
  | none => rfl
  | some c => rfl

theorem configureMergeHook_survivor (st : Store) (ty newId identLid matchedLid : String)
    (curId : Option String) (imK : Nat) (im : InternalModel)
    (hcur : Tbl.get st.idValues identLid = some ⟨ty, curId, identLid⟩)
    (hcurne : curId ≠ some newId)
    (hmne : matchedLid ≠ identLid)
    (hmid : Tbl.get st.idValues matchedLid = some ⟨ty, some newId, matchedLid⟩)
    (hmap : Tbl.get st.modelMap (ty, identLid) = some imK)
    (him : Tbl.get st.ims imK = some im)
    (himsd : im.scheduledDestroy = false)
    (hnoconf : st.mergeHasConflict (Tbl.get st.modelMap (ty, matchedLid)) (some imK) = false)
    (hkMsd : ∀ kM, Tbl.get st.modelMap (ty, matchedLid) = some kM →
      (st.getIM kM).scheduledDestroy = false) :
    ∃ SH kS,
      st.configureMergeHook identLid matchedLid ⟨some (some newId), some ty⟩ =
        (.ok matchedLid, SH) ∧
      SH.idValues = st.idValues ∧ SH.lids = st.lids ∧ SH.typeIds = st.typeIds ∧
      Tbl.get SH.modelMap (ty, identLid) = none ∧
      Tbl.get SH.modelMap (ty, matchedLid) = some kS ∧
      (SH.getIM kS).scheduledDestroy = false ∧
      (kS = imK ∨ Tbl.get st.modelMap (ty, matchedLid) = some kS) := by
  have hintended : mergeChooseIntended ⟨ty, curId, identLid⟩ ⟨ty, some newId, matchedLid⟩
      ⟨some (some newId), some ty⟩ = (⟨ty, some newId, matchedLid⟩ : IdentifierVal) := by
    simp [mergeChooseIntended, hcurne]
  have hpne : ((ty, matchedLid) : String × String) ≠ (ty, identLid) := by
    simp [hmne]
  cases hkM : Tbl.get st.modelMap (ty, matchedLid) with
  | none =>
    refine ⟨{ st with
        modelMap := Tbl.set (Tbl.del st.modelMap (ty, identLid)) (ty, matchedLid) imK,
        ims := Tbl.set st.ims imK { im with _id := some newId } }, imK,
      ?_, rfl, rfl, rfl, ?_, ?_, ?_, Or.inl rfl⟩
    · simp only [Store.configureMergeHook, Store.idValue, hcur, hmid, Option.getD_some,
        hintended]
      simp [hcurne, Store.modelMapGet, hkM, hmap, Store.mergeHasConflict,
        Store.mergeShouldUseOther, Store.setIM, Store.getIM, him]
    · show Tbl.get (Tbl.set (Tbl.del st.modelMap (ty, identLid)) (ty, matchedLid) imK)
        (ty, identLid) = none
      rw [Tbl.get_set_ne _ _ _ _ hpne]
      exact Tbl.get_del_self _ _
    · exact Tbl.get_set_self _ _ _
    · show ((Tbl.get (Tbl.set st.ims imK { im with _id := some newId }) imK).getD
        default).scheduledDestroy = false
      rw [Tbl.get_set_self]
      exact himsd
  | some kM =>
    have hcf : ((st.getIM kM).hasRecord && (st.getIM imK).hasRecord) = false := by
      have h := hnoconf
      rw [hkM] at h
      simpa [Store.mergeHasConflict] using h
    cases huo : (!(st.getIM kM).hasRecord && (st.getIM imK).hasRecord) with
    | true =>
      have ha : (st.getIM kM).hasRecord = false := by
        cases hval : (st.getIM kM).hasRecord
        · rfl
        · rw [hval] at huo
          simp at huo
      have hbim : im.hasRecord = true := by
        cases hval : im.hasRecord
        · have hgI : (st.getIM imK).hasRecord = im.hasRecord := by
            simp [Store.getIM, him]
          rw [hgI, hval] at huo
          simp at huo
        · rfl
      have haim : ((Tbl.get st.ims kM).getD default).hasRecord = false := ha
      refine ⟨{ st with
          modelMap := Tbl.set (Tbl.del (Tbl.del st.modelMap (ty, identLid)) (ty, matchedLid))
            (ty, matchedLid) imK,
          ims := Tbl.set st.ims imK { im with _id := some newId } }, imK,
        ?_, rfl, rfl, rfl, ?_, ?_, ?_, Or.inl rfl⟩
      · simp only [Store.configureMergeHook, Store.idValue, hcur, hmid, Option.getD_some,
          hintended]
        simp [hcurne, Store.modelMapGet, hkM, hmap, Store.mergeHasConflict, hcf,
          Store.mergeShouldUseOther, huo, Store.setIM, Store.getIM, him, haim, hbim]
      · show Tbl.get (Tbl.set (Tbl.del (Tbl.del st.modelMap (ty, identLid)) (ty, matchedLid))
          (ty, matchedLid) imK) (ty, identLid) = none
        rw [Tbl.get_set_ne _ _ _ _ hpne]
        rw [Tbl.get_del_ne _ _ _ hpne]
        exact Tbl.get_del_self _ _
      · exact Tbl.get_set_self _ _ _
      · show ((Tbl.get (Tbl.set st.ims imK { im with _id := some newId }) imK).getD
          default).scheduledDestroy = false
        rw [Tbl.get_set_self]
        exact himsd
    | false =>
      have hgI : (st.getIM imK).hasRecord = im.hasRecord := by
        simp [Store.getIM, him]
      have hno1 : ¬(((Tbl.get st.ims kM).getD default).hasRecord = true ∧
          im.hasRecord = true) := by
        intro hcontr
        obtain ⟨h1, h2⟩ := hcontr
        have h1k : (st.getIM kM).hasRecord = true := h1
        rw [h1k, hgI, h2] at hcf
        simp at hcf
      have hno2 : ¬(((Tbl.get st.ims kM).getD default).hasRecord = false ∧
          im.hasRecord = true) := by
        intro hcontr
        obtain ⟨h1, h2⟩ := hcontr
        have h1k : (st.getIM kM).hasRecord = false := h1
        rw [h1k, hgI, h2] at huo
        simp at huo
      refine ⟨{ st with modelMap := Tbl.del st.modelMap (ty, identLid) }, kM,
        ?_, rfl, rfl, rfl, ?_, ?_, ?_, Or.inr rfl⟩
      · simp only [Store.configureMergeHook, Store.idValue, hcur, hmid, Option.getD_some,
          hintended]
        simp [hcurne, Store.modelMapGet, hkM, hmap, Store.mergeHasConflict, hcf,
          Store.mergeShouldUseOther, huo, Store.setIM, Store.getIM, him, hno1, hno2]
      · exact Tbl.get_del_self _ _
      · show Tbl.get (Tbl.del st.modelMap (ty, identLid)) (ty, matchedLid) = some kM
        rw [Tbl.get_del_ne _ _ _ (Ne.symm hpne)]
        exact hkM
      · exact hkMsd kM hkM

/-- C3: when a push triggers an identifier merge inside `_load` — the looked-up
identifier's id differs from the pushed id (including the id-less client-created
case) and another registered identifier already bears the pushed `(type, id)` —
and the two internal models do not both hold materialized records, `_load`
returns the surviving (matched) identifier and in the final store exactly one
live internal model remains for the merged resource, whichever side it came
from: the alternate's identity-map entry is gone, the pushed data was applied to
the surviving entry via `setupData`, and the lid table resolves both original
handles (`identLid` and `matchedLid`) to the survivor. -/
theorem load_merge_leaves_single_survivor
    (st : Store) (data : ExistingResourceObject)
    (newId identLid matchedLid : String) (curId : Option String) (imK : Nat)
    (im : InternalModel)
    (hid : data.id = some newId)
    (hne0 : newId ≠ "")
    (hexist : st.doesTypeExist data.type = true)
    (hlid : data.lid = some identLid)
    (hcanon : Tbl.get st.lids identLid = some identLid)
    (hcur : Tbl.get st.idValues identLid = some ⟨data.type, curId, identLid⟩)
    (hcurne : curId ≠ some newId)
    (hmap : Tbl.get st.modelMap (data.type, identLid) = some imK)
    (him : Tbl.get st.ims imK = some im)
    (himsd : im.scheduledDestroy = false)
    (himlid : im.lid = identLid)
    (hmatch : Tbl.get st.typeIds (data.type, newId) = some matchedLid)
    (hmne : matchedLid ≠ identLid)
    (hmid : Tbl.get st.idValues matchedLid = some ⟨data.type, some newId, matchedLid⟩)
    (hlidm : Tbl.get st.lids matchedLid = some matchedLid)
    (hnoconf : st.mergeHasConflict (Tbl.get st.modelMap (data.type, matchedLid)) (some imK) = false)
    (hkMsd : ∀ kM, Tbl.get st.modelMap (data.type, matchedLid) = some kM →
      (st.getIM kM).scheduledDestroy = false) :
    ∃ stF kS, st._load data = (.ok matchedLid, stF) ∧
      (kS = imK ∨ Tbl.get st.modelMap (data.type, matchedLid) = some kS) ∧
      stF.modelMapGet data.type identLid = none ∧
      stF.modelMapGet data.type matchedLid = some kS ∧
      (stF.getIM kS).state = RecordState.loaded ∧
      (stF.getIM kS).lastData = some data ∧
      Tbl.get stF.lids identLid = some matchedLid ∧
      Tbl.get stF.lids matchedLid = some matchedLid := by
  have hv : validPushId (some newId) = true := by simp [validPushId, hne0]
  have hlk1 : st.factoryLookup ⟨data.type, some newId, some identLid⟩ (some data) = (st, imK) := by
    simp [Store.factoryLookup, Store.getOrCreateRecordIdentifier, resourceOfData, hlid, hcanon,
      Store.factoryPeek, Store.idValue, hcur, Store.modelMapGet, hmap, Store.getIM, him, himsd]
  obtain ⟨SH, kS, hhook, hSHidv, hSHlids, hSHty, hSHmi, hSHmm, hSHsd, hSurv⟩ :=
    configureMergeHook_survivor st data.type newId identLid matchedLid curId imK im
      hcur hcurne hmne hmid hmap him himsd hnoconf hkMsd
  obtain ⟨TY, hupd⟩ : ∃ TY, st.updateRecordIdentifier identLid data =
      (.ok matchedLid,
       { SH with
         idValues := Tbl.set SH.idValues matchedLid ⟨data.type, some newId, matchedLid⟩,
         lids := Tbl.set (Tbl.del SH.lids identLid) identLid matchedLid,
         typeIds := TY }) :=
    ⟨_, updateRecordIdentifier_merge st SH data newId identLid matchedLid curId
      hid hcur hcurne hmatch hmne hmid hhook hSHidv hSHlids hSHty⟩
  set ST2 : Store :=
    { SH with
      idValues := Tbl.set SH.idValues matchedLid ⟨data.type, some newId, matchedLid⟩,
      lids := Tbl.set (Tbl.del SH.lids identLid) identLid matchedLid,
      typeIds := TY } with hST2
  have hlids2 : Tbl.get ST2.lids matchedLid = some matchedLid := by
    show Tbl.get (Tbl.set (Tbl.del SH.lids identLid) identLid matchedLid) matchedLid = _
    rw [Tbl.get_set_ne _ _ _ _ (Ne.symm hmne), Tbl.get_del_ne _ _ _ (Ne.symm hmne), hSHlids]
    exact hlidm
  have hidv2 : Tbl.get ST2.idValues matchedLid = some ⟨data.type, some newId, matchedLid⟩ := by
    show Tbl.get (Tbl.set SH.idValues matchedLid ⟨data.type, some newId, matchedLid⟩)
      matchedLid = _
    exact Tbl.get_set_self _ _ _
  have hmm2 : Tbl.get ST2.modelMap (data.type, matchedLid) = some kS := hSHmm
  have hsd2 : (ST2.getIM kS).scheduledDestroy = false := hSHsd
  have hlk2 := factoryLookup_resolved ST2 data.type newId matchedLid kS hlids2 hidv2 hmm2 hsd2
  have hres2cast : ST2.idValue matchedLid = ⟨data.type, some newId, matchedLid⟩ := by
    simp [Store.idValue, hidv2]
  have hload : st._load data = (.ok matchedLid, ST2.setupData kS data) ∨
      st._load data = (.ok matchedLid,
        { ST2.setupData kS data with
          recordDidChangeLog := matchedLid :: (ST2.setupData kS data).recordDidChangeLog }) := by
    cases hU : (!im.isEmpty && !(im.isLoading || !im.isLoaded && (some identLid).isSome)) with
    | true =>
      left
      simp only [Store._load, hv, hexist, normalizeModelName, ensureStringId, coerceId, hid,
        hlid, Option.getD_some, Store.peekRecordIdentifier, hcanon, hlk1, Store.getIM, him,
        himlid, hupd, hU]
      simp [hmne, resourceOfIdentifier, hres2cast, hlk2]
    | false =>
      have hrest : (im.isLoading || !im.isLoaded && (some identLid).isSome) = true := by
        cases hs : im.state
        case empty =>
          simp [InternalModel.isLoaded, RecordState.isLoadedState, hs]
        case loading =>
          simp [InternalModel.isLoading, hs]
        case loaded =>
          have h1 : im.isEmpty = false := by simp [InternalModel.isEmpty, hs]
          have h2 : im.isLoading = false := by simp [InternalModel.isLoading, hs]
          have h3 : im.isLoaded = true := by
            simp [InternalModel.isLoaded, RecordState.isLoadedState, hs]
          rw [h1, h2, h3] at hU
          simp at hU
        case created =>
          have h1 : im.isEmpty = false := by simp [InternalModel.isEmpty, hs]
          have h2 : im.isLoading = false := by simp [InternalModel.isLoading, hs]
          have h3 : im.isLoaded = true := by
            simp [InternalModel.isLoaded, RecordState.isLoadedState, hs]
          rw [h1, h2, h3] at hU
          simp at hU
        case deleted =>
          have h1 : im.isEmpty = false := by simp [InternalModel.isEmpty, hs]
          have h2 : im.isLoading = false := by simp [InternalModel.isLoading, hs]
          have h3 : im.isLoaded = true := by
            simp [InternalModel.isLoaded, RecordState.isLoadedState, hs]
          rw [h1, h2, h3] at hU
          simp at hU
      right
      simp only [Store._load, hv, hexist, normalizeModelName, ensureStringId, coerceId, hid,
        hlid, Option.getD_some, Store.peekRecordIdentifier, hcanon, hlk1, Store.getIM, him,
        himlid, hupd, hU, hrest]
      simp [hmne, resourceOfIdentifier, hres2cast, hlk2]
  have hconc : ∀ stF : Store,
      stF.modelMap = ST2.modelMap →
      stF.ims = (ST2.setupData kS data).ims →
      stF.lids = ST2.lids →
      stF.modelMapGet data.type identLid = none ∧
      stF.modelMapGet data.type matchedLid = some kS ∧
      (stF.getIM kS).state = RecordState.loaded ∧
      (stF.getIM kS).lastData = some data ∧
      Tbl.get stF.lids identLid = some matchedLid ∧
      Tbl.get stF.lids matchedLid = some matchedLid := by
    intro stF hFm hFi hFl
    refine ⟨?_, ?_, ?_, ?_, ?_, ?_⟩
    · show Tbl.get stF.modelMap (data.type, identLid) = none
      rw [hFm]
      exact hSHmi
    · show Tbl.get stF.modelMap (data.type, matchedLid) = some kS
      rw [hFm]
      exact hSHmm
    · show ((Tbl.get stF.ims kS).getD default).state = RecordState.loaded
      rw [hFi]
      show ((Tbl.get (Tbl.set ST2.ims kS
        { ST2.getIM kS with state := RecordState.loaded, lastData := some data }) kS).getD
          default).state = RecordState.loaded
      rw [Tbl.get_set_self]
      rfl
    · show ((Tbl.get stF.ims kS).getD default).lastData = some data
      rw [hFi]
      show ((Tbl.get (Tbl.set ST2.ims kS
        { ST2.getIM kS with state := RecordState.loaded, lastData := some data }) kS).getD
          default).lastData = some data
      rw [Tbl.get_set_self]
      rfl
    · rw [hFl]
      show Tbl.get (Tbl.set (Tbl.del SH.lids identLid) identLid matchedLid) identLid =
        some matchedLid
      exact Tbl.get_set_self _ _ _
    · rw [hFl]
      exact hlids2
  rcases hload with h | h
  · exact ⟨ST2.setupData kS data, kS, h, hSurv, hconc _ rfl rfl rfl⟩
  · exact ⟨_, kS, h, hSurv, hconc
      { ST2.setupData kS data with
        recordDidChangeLog := matchedLid :: (ST2.setupData kS data).recordDidChangeLog }
      rfl rfl rfl⟩

theorem load_merge_leaves_single_survivor_witness :
    mergeData.id = some "2" ∧
    Tbl.get mergeStore.modelMap ("person", "ls") = some 1 ∧
    mergeStore.mergeHasConflict (Tbl.get mergeStore.modelMap ("person", "ls")) (some 0) = false ∧
    (∃ stF kS, mergeStore._load mergeData = (Except.ok "ls", stF) ∧
      (kS = 0 ∨ Tbl.get mergeStore.modelMap ("person", "ls") = some kS) ∧
      stF.modelMapGet "person" "lc" = none ∧
      stF.modelMapGet "person" "ls" = some kS ∧
      (stF.getIM kS).state = RecordState.loaded ∧
      (stF.getIM kS).lastData = some mergeData ∧
      Tbl.get stF.lids "lc" = some "ls" ∧
      Tbl.get stF.lids "ls" = some "ls") := by
  refine ⟨rfl, by decide, by decide, ?_⟩
  exact load_merge_leaves_single_survivor mergeStore mergeData "2" "lc" "ls" none 0
    ⟨"person", "lc", none, RecordState.created, true, false, false, none⟩
    rfl (by decide) (by decide) rfl (by decide) (by decide) (by decide) (by decide)
    (by decide) rfl rfl (by decide) (by decide) (by decide) (by decide) (by decide)
    (by
      intro kM h
      have h2 : some 1 = some kM := h
      cases Option.some.inj h2
      decide)
